import Mathlib

/-!
# lygo/health: the registry, the probe runner and the status reduction

A shallow embedding of `health.go`.

* Go maps are association lists (`GoMap`): `find` is the two-result lookup
  `v, ok := m[k]`, `index` the one-result lookup `m[k]` (zero value when the
  key is absent), `assign` is `m[k] = v` and `delete` is `delete(m, k)`.
* `HealthComponentStatus`, `HealthStatus` and `componentPresent` are Go `int`
  types, so they are integers here: a checker may return any integer.
* A nil `*componentOption` is `none`; dereferencing it panics, and a panic is
  the result `none` of `healther.Check`.
* The stream read by `healther.Check` is the list of reports in arrival order.
* Counters are unbounded integers: a Go `int` counter cannot overflow on a
  stream that fits in memory.
-/

namespace health

/-! ## Go maps -/

/-- A Go `map[string]V`, as an association list. -/
abbrev GoMap (V : Type) := List (String × V)

namespace GoMap

/-- The lookup `v, ok := m[k]`: `none` when `ok` is false. -/
def find {V : Type} (m : GoMap V) (k : String) : Option V :=
  List.lookup k m

/-- The lookup `m[k]`, which yields the zero value for an absent key. -/
def index {V : Type} (zero : V) (m : GoMap V) (k : String) : V :=
  (find m k).getD zero

/-- The builtin `delete(m, k)`. -/
def delete {V : Type} (m : GoMap V) (k : String) : GoMap V :=
  m.filter (fun e => e.1 != k)

/-- The assignment `m[k] = v`. -/
def assign {V : Type} (m : GoMap V) (k : String) (v : V) : GoMap V :=
  (k, v) :: delete m k

/-- The increment `m[k]++` on a `map[string]int`. -/
def incr (m : GoMap Int) (k : String) : GoMap Int :=
  assign m k (index 0 m k + 1)

end GoMap

/-! ## Status model -/

/-- The Go type `HealthComponentStatus int`. -/
abbrev HealthComponentStatus := Int

def HealthComponentStatusUnknown : HealthComponentStatus := 0
def HealthComponentStatusOn : HealthComponentStatus := 1
def HealthComponentStatusOff : HealthComponentStatus := 2
def HealthComponentStatusFail : HealthComponentStatus := 3
def HealthComponentStatusTimeout : HealthComponentStatus := 4

/-- The name table `healthComponentsStatus`. -/
def healthComponentsStatus : List (HealthComponentStatus × String) :=
  [(HealthComponentStatusUnknown, "unknown"),
   (HealthComponentStatusOn, "on"),
   (HealthComponentStatusOff, "off"),
   (HealthComponentStatusFail, "fail"),
   (HealthComponentStatusTimeout, "timeout")]

/-- The method `HealthComponentStatus.String`. -/
def HealthComponentStatus.String (h : HealthComponentStatus) : String :=
  match List.lookup h healthComponentsStatus with
  | none => "unknown"
  | some str => str

/-- The Go type `HealthStatus int`. -/
abbrev HealthStatus := Int

def HealthUnknown : HealthStatus := 0
def HealthServing : HealthStatus := 1
def HealthNotServing : HealthStatus := 2

/-- A `time.Duration`, in nanoseconds. -/
abbrev Duration := Int

/-- The struct `HealthComponentState`: what one invocation of a checker returns.
A nil `Stats` map is the empty map. -/
structure HealthComponentState where
  Status : HealthComponentStatus
  Description : String
  Stats : GoMap Int
  deriving DecidableEq, Repr

/-- The struct `HealthComponentDescription`: one component report. -/
structure HealthComponentDescription where
  ComponentName : String
  Status : HealthComponentStatus
  Description : String
  Stats : GoMap Int
  Duration : Duration
  deriving DecidableEq, Repr

/-- The struct `Health`: the overall report. -/
structure Health where
  Status : HealthStatus
  Stats : GoMap Int
  Components : List HealthComponentDescription
  Duration : Duration
  deriving DecidableEq, Repr

/-! ## Registry -/

/-- The Go type `componentPresent int`. -/
abbrev componentPresent := Int

def ComponentPresentRequired : componentPresent := 0
def ComponentPresentOptional : componentPresent := 1

/-- The struct `componentOption`; its field `Type` is `Type_` here. -/
structure componentOption where
  Type_ : componentPresent
  deriving DecidableEq, Repr

/-- The Go type `Option func(*componentOption)`: the write through the pointer
is the returned value. -/
abbrev OptionFn := componentOption → componentOption

/-- The constructor `SetOptional()`. -/
def SetOptional : OptionFn :=
  fun o => { o with Type_ := ComponentPresentOptional }

/-- The struct `healther`, without its lock; `χ` is the type of the checkers.
A stored `*componentOption` is `some o`, and `none` is the nil pointer. -/
structure healther (χ : Type) where
  healthers : GoMap χ
  componentOptions : GoMap (Option componentOption)

/-- The constructor `New`. -/
def New (χ : Type) : healther χ :=
  { healthers := [], componentOptions := [] }

/-- The value `new(componentOption)` after every option has been applied to it
in order. -/
def applyOptions (opts : List OptionFn) : componentOption :=
  opts.foldl (fun comOpt opt => opt comOpt) { Type_ := 0 }

/-- The message of the error returned by `Register` for a taken name. -/
def alreadyRegistered (componentName : String) : String :=
  "component " ++ componentName ++ " already registered"

/-- The method `healther.Register`: the registry afterwards and the error
(`none` is the nil error). -/
def healther.Register {χ : Type} (h : healther χ) (componentName : String) (health : χ)
    (opts : List OptionFn) : healther χ × Option String :=
  match GoMap.find h.healthers componentName with
  | some _ => (h, some (alreadyRegistered componentName))
  | none =>
    ({ healthers := GoMap.assign h.healthers componentName health,
       componentOptions :=
         GoMap.assign h.componentOptions componentName (some (applyOptions opts)) },
     none)

/-- The method `healther.UnRegister`. -/
def healther.UnRegister {χ : Type} (h : healther χ) (componentName : String) : healther χ :=
  { healthers := GoMap.delete h.healthers componentName,
    componentOptions := GoMap.delete h.componentOptions componentName }

/-! ## Aggregation -/

/-- The update of `result.Status` made by the `switch` of `healther.Check` for
one report, `opt` being the looked-up option pointer. The pointer is
dereferenced only in the first and in the `default` case; `none` is the panic
of dereferencing nil. -/
def switchStatus (opt : Option componentOption) (status : HealthStatus)
    (s : HealthComponentStatus) : Option HealthStatus :=
  if s = HealthComponentStatusOff ∨ s = HealthComponentStatusFail ∨
      s = HealthComponentStatusTimeout ∨ s = HealthComponentStatusUnknown then
    match opt with
    | none => none
    | some o => some (if o.Type_ = ComponentPresentRequired then HealthNotServing else status)
  else if s = HealthComponentStatusOn then
    some (if status = HealthUnknown then HealthServing else status)
  else
    match opt with
    | none => none
    | some o => some (if o.Type_ = ComponentPresentRequired then HealthNotServing else status)

/-- One iteration of the `for ... range` loop of `healther.Check`. -/
def checkStep {χ : Type} (h : healther χ) (result : Health)
    (healthOfComponent : HealthComponentDescription) : Option Health :=
  let opt := GoMap.index none h.componentOptions healthOfComponent.ComponentName
  let stats := GoMap.incr result.Stats (HealthComponentStatus.String healthOfComponent.Status)
  match switchStatus opt result.Status healthOfComponent.Status with
  | none => none
  | some status =>
    some { result with
      Status := status
      Stats := stats
      Components := result.Components ++ [healthOfComponent] }

/-- The initial value of `result` in `healther.Check`. -/
def initialHealth : Health :=
  { Status := HealthUnknown, Stats := [], Components := [], Duration := 0 }

/-- The whole `for ... range` loop of `healther.Check` over the reports of the
stream, in arrival order. -/
def checkLoop {χ : Type} (h : healther χ) (stream : List HealthComponentDescription) :
    Option Health :=
  stream.foldlM (checkStep h) initialHealth

/-- The fallback after the loop: a status still unknown becomes not serving
when `Stats` has no entry for the name of `HealthComponentStatusOn`. -/
def fallbackStatus (result : Health) : HealthStatus :=
  if result.Status = HealthUnknown then
    match GoMap.find result.Stats (HealthComponentStatus.String HealthComponentStatusOn) with
    | none => HealthNotServing
    | some _ => result.Status
  else result.Status

/-- The order `sort.Slice` is called with, as a non-strict order; the sort is
an insertion sort, which is what `sort.Slice` runs on short slices (reports of
equal duration keep their arrival order). -/
def sortByDuration (cs : List HealthComponentDescription) : List HealthComponentDescription :=
  cs.insertionSort (fun a b => a.Duration ≤ b.Duration)

/-- The method `healther.Check`, given the reports delivered by the
dispatcher's stream in arrival order and the value `sinceStart` read for
`time.Since(start)`. The result is `none` when the loop panics. -/
def healther.Check {χ : Type} (h : healther χ) (stream : List HealthComponentDescription)
    (sinceStart : Duration) : Option Health :=
  match checkLoop h stream with
  | none => none
  | some result =>
    let result := { result with Duration := sinceStart }
    let result := { result with Status := fallbackStatus result }
    some { result with Components := sortByDuration result.Components }

/-! ## Reading the registry and classifying a stream -/

/-- The pointer `h.componentOptions[componentName]` read by `healther.Check`. -/
def healther.option {χ : Type} (h : healther χ) (componentName : String) :
    Option componentOption :=
  GoMap.index none h.componentOptions componentName

/-- A component is registered when its name is a key of `h.healthers`, the map
`Register` tests and the dispatcher ranges over. -/
def healther.registered {χ : Type} (h : healther χ) (componentName : String) : Bool :=
  (GoMap.find h.healthers componentName).isSome

/-- A component is required when its stored option has the type
`ComponentPresentRequired`, and optional when it has any other type. -/
def healther.isRequired {χ : Type} (h : healther χ) (componentName : String) : Bool :=
  match h.option componentName with
  | some o => decide (o.Type_ = ComponentPresentRequired)
  | none => false

def healther.isOptional {χ : Type} (h : healther χ) (componentName : String) : Bool :=
  match h.option componentName with
  | some o => decide (o.Type_ ≠ ComponentPresentRequired)
  | none => false

/-- The two maps of a registry agree: they have the same keys and no stored
option is the nil pointer. -/
def healther.Consistent {χ : Type} (h : healther χ) : Prop :=
  ∀ name : String,
    (GoMap.find h.healthers name).isSome = (GoMap.find h.componentOptions name).isSome ∧
    GoMap.find h.componentOptions name ≠ some none

/-- The statuses the classification rule of the specification lists as
failures: off, fail, timeout and unknown. -/
def listedFailure (s : HealthComponentStatus) : Bool :=
  decide (s = HealthComponentStatusOff ∨ s = HealthComponentStatusFail ∨
    s = HealthComponentStatusTimeout ∨ s = HealthComponentStatusUnknown)

/-- The reference classification, as the specification words it: not serving
when a required component reports a listed failure, otherwise serving when
some report is on, otherwise not serving. -/
def referenceClassification {χ : Type} (h : healther χ)
    (stream : List HealthComponentDescription) : HealthStatus :=
  if stream.any (fun r => h.isRequired r.ComponentName && listedFailure r.Status) then
    HealthNotServing
  else if stream.any (fun r => decide (r.Status = HealthComponentStatusOn)) then
    HealthServing
  else HealthNotServing

/-- The classification with every status other than on counted as a failure of
a required component, which adds the statuses outside the five constants. -/
def classification {χ : Type} (h : healther χ)
    (stream : List HealthComponentDescription) : HealthStatus :=
  if stream.any (fun r => h.isRequired r.ComponentName &&
      decide (r.Status ≠ HealthComponentStatusOn)) then
    HealthNotServing
  else if stream.any (fun r => decide (r.Status = HealthComponentStatusOn)) then
    HealthServing
  else HealthNotServing

/-- The report makes the loop dereference a nil option pointer. -/
def derefsNil {χ : Type} (h : healther χ) (r : HealthComponentDescription) : Bool :=
  decide (r.Status ≠ HealthComponentStatusOn) && (h.option r.ComponentName).isNone

/-- The value of `result.Status` after the loop has consumed `stream`, started
with the status `status`, when no report makes it panic. -/
def statusAfter {χ : Type} (h : healther χ) (status : HealthStatus)
    (stream : List HealthComponentDescription) : HealthStatus :=
  if stream.any (fun r => h.isRequired r.ComponentName &&
      decide (r.Status ≠ HealthComponentStatusOn)) then
    HealthNotServing
  else if status = HealthUnknown then
    (if stream.any (fun r => decide (r.Status = HealthComponentStatusOn)) then HealthServing
     else HealthUnknown)
  else status

/-- The value of `result.Stats` after the loop has consumed `stream`. -/
def statsAfter (stats : GoMap Int) (stream : List HealthComponentDescription) : GoMap Int :=
  stream.foldl (fun m r => GoMap.incr m (HealthComponentStatus.String r.Status)) stats

/-- The number of reports of `stream` whose status has the name `key`. -/
def statusCount (key : String) (stream : List HealthComponentDescription) : Nat :=
  stream.countP (fun r => HealthComponentStatus.String r.Status == key)

/-! ## Probe runner and dispatcher

The world `W` holds whatever a checker and the context depend on: the state of
the checker, the clock, the state of the context. A checker invocation maps a
world to its result and the world afterwards. -/

/-- A `context.Context`, as a probe observes it: whether the channel `Done()`
is closed, and the message `Err().Error()`. -/
structure Context (W : Type) where
  Done : W → Bool
  Err : W → String

/-- The interface `ComponentHealther`: its method `Check`. -/
structure ComponentHealther (W : Type) where
  Check : Context W → W → HealthComponentState × W

/-- The report built in the `case <-ctx.Done()` branches, with `clock w` the
instant read by `time.Since`. Its `Stats` field is left nil. -/
def timeoutDescription {W : Type} (clock : W → Int) (ctx : Context W) (start : Int)
    (name : String) (w : W) : HealthComponentDescription :=
  { ComponentName := name
    Status := HealthComponentStatusTimeout
    Description := ctx.Err w
    Stats := []
    Duration := clock w - start }

/-- The function `wrapHealthCheck`. The recursion of the source has no bound,
so the first argument after the checker bounds its depth: `none` means the
bound was reached before a report was returned. The result holds the report,
the world afterwards and the number of invocations of the checker. -/
def wrapHealthCheck {W : Type} (clock : W → Int) (ctx : Context W) (start : Int)
    (name : String) (healther : ComponentHealther W) :
    Nat → W → Option (HealthComponentDescription × W × Nat)
  | 0, _ => none
  | fuel + 1, w =>
    let state := (healther.Check ctx w).1
    let w1 := (healther.Check ctx w).2
    if state.Status = HealthComponentStatusFail then
      if ctx.Done w1 then
        some (timeoutDescription clock ctx start name w1, w1, 1)
      else
        match wrapHealthCheck clock ctx start name healther fuel w1 with
        | none => none
        | some (report, w2, calls) => some (report, w2, calls + 1)
    else
      some ({ ComponentName := name
              Status := state.Status
              Description := state.Description
              Stats := state.Stats
              Duration := clock w1 - start }, w1, 1)

/-- One goroutine started by `gatheringStateOfHealth`: the report it sends
on `out` and the world in which it does. A `select` evaluates the operands of
all its cases on entry, so the call of `wrapHealthCheck` in the send case has
returned before a case is chosen. `fired` is `some w2` when the runtime
chooses `case <-ctx.Done()`, in the world `w2`, and `none` when it chooses the
send. -/
def gatheringTask {W : Type} (clock : W → Int) (ctx : Context W) (start : Int)
    (name : String) (healther : ComponentHealther W) (fuel : Nat) (w : W)
    (fired : Option W) : Option (HealthComponentDescription × W) :=
  match wrapHealthCheck clock ctx start name healther fuel w with
  | none => none
  | some (report, w1, _) =>
    match fired with
    | none => some (report, w1)
    | some w2 =>
      if ctx.Done w2 then some (timeoutDescription clock ctx start name w2, w2)
      else some (report, w1)

/-- The world after `k` successive invocations of the checker. -/
def worldAfter {W : Type} (ctx : Context W) (healther : ComponentHealther W) : Nat → W → W
  | 0, w => w
  | k + 1, w => worldAfter ctx healther k (healther.Check ctx w).2

/-- The result of invocation `k + 1` of the checker. -/
def resultOf {W : Type} (ctx : Context W) (healther : ComponentHealther W) (k : Nat) (w : W) :
    HealthComponentState :=
  (healther.Check ctx (worldAfter ctx healther k w)).1

/-! ## The checker and the contexts of `health_test.go` -/

/-- The fields of `mockComponent` that a check does not change. -/
structure mockComponent where
  timeout : Duration
  status : HealthComponentStatus
  desc : String
  deriving DecidableEq, Repr

/-- The world of one `mockComponent`: the clock, in nanoseconds, and the
field `countFail`. -/
structure mockWorld where
  now : Int
  countFail : Int
  deriving DecidableEq, Repr

/-- The method `mockComponent.Check`: sleep, then fail while `countFail` is
positive. -/
def mockComponent.Check (m : mockComponent) : ComponentHealther mockWorld :=
  { Check := fun _ w =>
      let w := { w with now := w.now + m.timeout }
      if w.countFail > 0 then
        ({ Status := HealthComponentStatusFail, Description := "server not found", Stats := [] },
         { w with countFail := w.countFail - 1 })
      else
        ({ Status := m.status, Description := m.desc, Stats := [] }, w) }

/-- The context `context.WithTimeout(context.Background(), d)` made at instant 0. -/
def withTimeout (d : Duration) : Context mockWorld :=
  { Done := fun w => decide (d ≤ w.now)
    Err := fun _ => "context deadline exceeded" }

def millisecond : Duration := 1000000

/-- The component `componentC` of `TestSuccessHealth`, with a sleep of half a
millisecond. -/
def componentC : mockComponent :=
  { timeout := 500000, status := HealthComponentStatusOn, desc := "success connect Yo!" }

/-- The component `componentA` of `TestFailWithCtxHealth`. -/
def componentA : mockComponent :=
  { timeout := 500 * millisecond, status := HealthComponentStatusOn,
    desc := "start work on port 934534" }

/-- The component `componentB` of the tests. -/
def componentB : mockComponent :=
  { timeout := 500000, status := HealthComponentStatusOff, desc := "dns not set - skip" }

/-- The registry of `TestFailWithRequiredHealth`: three required components. -/
def requiredRegistry : healther mockComponent :=
  ((((New mockComponent).Register "componentA" componentA []).1.Register
    "componentB" componentB []).1.Register "componentC" componentC []).1

/-- The registry of `TestSuccessHealth`: `componentB` is optional. -/
def optionalRegistry : healther mockComponent :=
  ((((New mockComponent).Register "componentA" componentA []).1.Register
    "componentB" componentB [SetOptional]).1.Register "componentC" componentC []).1

/-- A report with the given name, status and duration. -/
def report (name : String) (status : HealthComponentStatus) (duration : Duration) :
    HealthComponentDescription :=
  { ComponentName := name, Status := status, Description := "", Stats := [],
    Duration := duration }

/-- The status of a result of `healther.Check`. -/
def statusOf (result : Option Health) : Option HealthStatus :=
  result.map Health.Status

/-- The entry of `Stats` under `key` in a result of `healther.Check`. -/
def statsOf (result : Option Health) (key : String) : Option (Option Int) :=
  result.map (fun res => GoMap.find res.Stats key)

/-- A stream in which the required `componentA` reports a status that is none
of the five constants while `componentB` is on. -/
def undefinedStatusStream : List HealthComponentDescription :=
  [report "componentA" 7 5, report "componentB" HealthComponentStatusOn 3]

/-- The stream of `TestSuccessHealth` and `TestFailWithRequiredHealth`:
`componentB` is off and arrives first, the other two are on. -/
def testStream : List HealthComponentDescription :=
  [report "componentB" HealthComponentStatusOff 1,
   report "componentC" HealthComponentStatusOn 3,
   report "componentA" HealthComponentStatusOn 500]

/-- The reports of `testStream` in another arrival order. -/
def testStreamReordered : List HealthComponentDescription :=
  [report "componentA" HealthComponentStatusOn 500,
   report "componentB" HealthComponentStatusOff 1,
   report "componentC" HealthComponentStatusOn 3]

/-- The five defined values of `HealthComponentStatus`. -/
def definedStatus (s : HealthComponentStatus) : Prop :=
  s = HealthComponentStatusUnknown ∨ s = HealthComponentStatusOn ∨
  s = HealthComponentStatusOff ∨ s = HealthComponentStatusFail ∨
  s = HealthComponentStatusTimeout

/-- A stream in which the required `componentA` is on and the required
`componentB` reports a status that is none of the five constants. -/
def onThenUndefinedStream : List HealthComponentDescription :=
  [report "componentA" HealthComponentStatusOn 5, report "componentB" 9 3]

/-- The reports of `TestFailWithCtxHealth`, with its deadline of 800 ms:
`componentA` fails until the deadline has passed and is reported as timed
out after its second sleep of 500 ms. -/
def ctxTestStream : List HealthComponentDescription :=
  [{ ComponentName := "componentB", Status := HealthComponentStatusOff,
     Description := "dns not set - skip", Stats := [], Duration := 500000 },
   { ComponentName := "componentC", Status := HealthComponentStatusOn,
     Description := "success connect Yo!", Stats := [], Duration := 500000 },
   { ComponentName := "componentA", Status := HealthComponentStatusTimeout,
     Description := "context deadline exceeded", Stats := [],
     Duration := 1000 * millisecond }]

/-- The result `TestFailWithCtxHealth` expects for `ctxTestStream`, read
after 1000 ms. -/
def ctxTestHealth : Health :=
  { Status := HealthNotServing
    Stats := [("timeout", 1), ("on", 1), ("off", 1)]
    Components := ctxTestStream
    Duration := 1000 * millisecond }

/-! ## The dispatcher over a registry -/

/-- The reports sent by the goroutines that `gatheringStateOfHealth` starts,
one for each entry of the map it ranges over, listed in the order of the map.
For the goroutine of the component `name`, `run name` gives the bound on the
recursion of its probe, the world it starts in and the choice of its `select`.
The result is `none` when some goroutine sends nothing, in which case the
channel is never closed. -/
def sentReports {W : Type} (clock : W → Int) (ctx : Context W) (start : Int)
    (run : String → Nat × W × Option W) :
    GoMap (ComponentHealther W) → Option (List HealthComponentDescription)
  | [] => some []
  | (name, check) :: rest =>
    match gatheringTask clock ctx start name check (run name).1 (run name).2.1 (run name).2.2 with
    | none => none
    | some (r, _) =>
      match sentReports clock ctx start run rest with
      | none => none
      | some rs => some (r :: rs)

/-- The method `healther.gatheringStateOfHealth`: the reports put on the
channel `out`. The loop of `healther.Check` receives them in some arrival
order, a permutation of this list. -/
def healther.gatheringStateOfHealth {W : Type} (clock : W → Int) (ctx : Context W)
    (start : Int) (h : healther (ComponentHealther W)) (run : String → Nat × W × Option W) :
    Option (List HealthComponentDescription) :=
  sentReports clock ctx start run h.healthers

/-- The registries that `New`, `Register` and `UnRegister` can produce. -/
inductive Reachable {χ : Type} : healther χ → Prop
  | new : Reachable (New χ)
  | register (h : healther χ) (componentName : String) (health : χ) (opts : List OptionFn) :
      Reachable h → Reachable (h.Register componentName health opts).1
  | unregister (h : healther χ) (componentName : String) :
      Reachable h → Reachable (h.UnRegister componentName)

/-- The sum of the values of a `map[string]int`. -/
def GoMap.total (m : GoMap Int) : Int :=
  (m.map Prod.snd).sum

/-- The keys of a map, in the order of its entries. -/
def GoMap.keys {V : Type} (m : GoMap V) : List String :=
  m.map Prod.fst

/-- A registry of two required components of `health_test.go`, holding their
`Check` methods: `componentA` is on, `componentB` is off. -/
def mockRegistry : healther (ComponentHealther mockWorld) :=
  (((New (ComponentHealther mockWorld)).Register "componentA" componentA.Check []).1.Register
    "componentB" componentB.Check []).1

/-- Every goroutine starts at instant 0 with a checker that never fails, is
given one invocation and sends the report of its probe. -/
def mockRun : String → Nat × mockWorld × Option mockWorld :=
  fun _ => (1, { now := 0, countFail := 0 }, none)

/-- The reports the dispatcher sends for `mockRegistry` under `mockRun`. -/
def mockStream : List HealthComponentDescription :=
  [{ ComponentName := "componentB", Status := HealthComponentStatusOff,
     Description := "dns not set - skip", Stats := [], Duration := 500000 },
   { ComponentName := "componentA", Status := HealthComponentStatusOn,
     Description := "start work on port 934534", Stats := [],
     Duration := 500 * millisecond }]

/-- The result of `Check` for `testStreamReordered` in the registry of three
required components: the reports are put in the order of their durations. -/
def reorderedHealth : Health :=
  { Status := HealthNotServing
    Stats := [("on", 2), ("off", 1)]
    Components := testStream
    Duration := 600 }

/-- The result of `Check` for a registry without components. -/
def emptyHealth (sinceStart : Duration) : Health :=
  { Status := HealthNotServing, Stats := [], Components := [], Duration := sinceStart }

/-- A registry from which its only component has been unregistered. -/
def unregisteredRegistry : healther (ComponentHealther mockWorld) :=
  ((New (ComponentHealther mockWorld)).Register "componentA" componentA.Check []).1.UnRegister
    "componentA"

/-- A stream in which the only report is the optional `componentB`, off. -/
def optionalOffStream : List HealthComponentDescription :=
  [report "componentB" HealthComponentStatusOff 1]

/-- The value of `result` after the loop of `Check` has consumed
`optionalOffStream` in `optionalRegistry`: the status is still unknown. -/
def optionalOffLoop : Health :=
  { Status := HealthUnknown, Stats := [("off", 1)], Components := optionalOffStream,
    Duration := 0 }

/-! ## Rendering of the statuses -/

/-- A `[]byte` holding text, as the string it encodes. -/
abbrev Bytes := String

/-- A Go `error`: its message, `none` being the nil error. -/
abbrev GoError := Option String

/-- The method `HealthComponentStatus.MarshalJSON`: the bytes returned and the
error. -/
def HealthComponentStatus.MarshalJSON (h : HealthComponentStatus) : Bytes × GoError :=
  ("\"" ++ HealthComponentStatus.String h ++ "\"", none)

/-- The slice `healthStatuses`. -/
def healthStatuses : List String :=
  ["UNKNOWN", "SERVING", "NOT_SERVING"]

/-- The method `HealthStatus.MarshalJSON`: the bytes returned and the error.
Indexing the slice out of range panics, which is the result `none`. -/
def HealthStatus.MarshalJSON (h : HealthStatus) : Option (Bytes × GoError) :=
  let msg := if h < 0 ∨ h > 2 then healthStatuses[0]? else healthStatuses[h.toNat]?
  match msg with
  | none => none
  | some msg => some ("\"" ++ msg ++ "\"", none)

/-! ## The readiness handler of `reporter/http` -/

/-- What a handler writes to its `http.ResponseWriter`: the status code and
the body. -/
structure Response where
  statusCode : Nat
  body : String
  deriving DecidableEq, Repr

/-- The line `fmt.Sprintf("- %s %s: %s", ...)` written for a failed component. -/
def failLine (component : HealthComponentDescription) : String :=
  "- " ++ component.ComponentName ++ " " ++ HealthComponentStatus.String component.Status ++
    ": " ++ component.Description

/-- The line `fmt.Sprintf("- %s %s: %s %s", ...)` written for a component that
timed out; `durationString` is the method `time.Duration.String`. -/
def timeoutLine (durationString : Duration → String) (component : HealthComponentDescription) :
    String :=
  "- " ++ component.ComponentName ++ " " ++ HealthComponentStatus.String component.Status ++
    ": " ++ component.Description ++ " " ++ durationString component.Duration

/-- One iteration of the loop of `ReadinessHandler` over `state.Components`:
the content of `buff` afterwards. -/
def writeComponent (durationString : Duration → String) (buff : String)
    (component : HealthComponentDescription) : String :=
  if component.Status = HealthComponentStatusFail then buff ++ failLine component
  else if component.Status = HealthComponentStatusTimeout then
    buff ++ timeoutLine durationString component
  else buff

/-- The handler returned by `ReadinessHandler`, applied to the result `state`
of `healther.Check`. `w.Write` without a header answers 200, and
`http.Error` answers the given code with the message and a line feed. -/
def ReadinessHandler (durationString : Duration → String) (state : Health) : Response :=
  if state.Status = HealthServing then
    { statusCode := 200, body := "OK" }
  else
    { statusCode := 503
      body := state.Components.foldl (writeComponent durationString) "" ++ "\n" }

/-- A rendering of durations for the examples: the number of nanoseconds. -/
def nanoseconds (d : Duration) : String :=
  toString d ++ "ns"

/-- A result with a failed component, a component that is on and one that
timed out, as `ReadinessHandler` may be handed. -/
def failingHealth : Health :=
  { Status := HealthNotServing
    Stats := [("timeout", 1), ("on", 1), ("fail", 1)]
    Components :=
      [{ ComponentName := "db", Status := HealthComponentStatusFail,
         Description := "no route", Stats := [], Duration := 2 },
       { ComponentName := "componentC", Status := HealthComponentStatusOn,
         Description := "success connect Yo!", Stats := [], Duration := 500000 },
       { ComponentName := "componentA", Status := HealthComponentStatusTimeout,
         Description := "context deadline exceeded", Stats := [],
         Duration := 1000 * millisecond }]
    Duration := 1000 * millisecond }

/-! ## Go maps: lookups after updates -/

theorem GoMap.find_delete_self {V : Type} (m : GoMap V) (k : String) :
    GoMap.find (GoMap.delete m k) k = none := by
  induction m with
  | nil => rfl
  | cons e m ih =>
    obtain ⟨a, b⟩ := e
    by_cases hk : a = k
    · subst hk
      simpa [GoMap.find, GoMap.delete, List.filter_cons] using ih
    · have hk2 : (k == a) = false := by simpa using fun h => hk h.symm
      simpa [GoMap.find, GoMap.delete, List.filter_cons, hk, List.lookup_cons, hk2] using ih

theorem GoMap.find_delete_of_ne {V : Type} (m : GoMap V) (k k2 : String) (hne : k2 ≠ k) :
    GoMap.find (GoMap.delete m k) k2 = GoMap.find m k2 := by
  induction m with
  | nil => rfl
  | cons e m ih =>
    obtain ⟨a, b⟩ := e
    by_cases hk : a = k
    · subst hk
      have hk2 : (k2 == a) = false := by simpa using hne
      simpa [GoMap.find, GoMap.delete, List.filter_cons, List.lookup_cons, hk2] using ih
    · by_cases hk3 : k2 = a
      · subst hk3
        simp [GoMap.find, GoMap.delete, List.filter_cons, hk, List.lookup_cons]
      · have hk2 : (k2 == a) = false := by simpa using hk3
        simpa [GoMap.find, GoMap.delete, List.filter_cons, hk, List.lookup_cons, hk2] using ih

theorem GoMap.find_assign_self {V : Type} (m : GoMap V) (k : String) (v : V) :
    GoMap.find (GoMap.assign m k v) k = some v := by
  simp [GoMap.find, GoMap.assign, List.lookup_cons]

theorem GoMap.find_assign_of_ne {V : Type} (m : GoMap V) (k k2 : String) (v : V)
    (hne : k2 ≠ k) : GoMap.find (GoMap.assign m k v) k2 = GoMap.find m k2 := by
  have hk2 : (k2 == k) = false := by simpa using hne
  have h := GoMap.find_delete_of_ne m k k2 hne
  simpa [GoMap.find, GoMap.assign, List.lookup_cons, hk2] using h

/-! ## The loop of `healther.Check` in closed form -/

theorem switchStatus_eq {χ : Type} (h : healther χ) (status : HealthStatus)
    (r : HealthComponentDescription) (hr : derefsNil h r = false) :
    switchStatus (h.option r.ComponentName) status r.Status =
      some (statusAfter h status [r]) := by
  unfold switchStatus statusAfter derefsNil healther.isRequired at *
  simp only [HealthComponentStatusOff, HealthComponentStatusFail, HealthComponentStatusTimeout,
    HealthComponentStatusUnknown, HealthComponentStatusOn, HealthUnknown, HealthServing,
    HealthNotServing, ComponentPresentRequired] at *
  cases hopt : h.option r.ComponentName with
  | none =>
    have h1 : r.Status = 1 := by simpa [hopt] using hr
    simp [h1]
  | some o =>
    by_cases h1 : r.Status = 1
    · simp [h1]
    · by_cases h2 : o.Type_ = 0
      · simp [h1, h2, hopt]
      · by_cases h3 : r.Status = 2 ∨ r.Status = 3 ∨ r.Status = 4 ∨ r.Status = 0
        · simp only [h1, h2, h3, hopt, if_true, if_false, not_false_eq_true, decide_True,
            decide_False, Bool.and_true, Bool.and_false, Bool.false_eq_true, List.any_cons,
            List.any_nil, Bool.or_false, ne_eq]
          split <;> simp_all
        · simp only [h1, h2, h3, hopt, if_true, if_false, not_false_eq_true, decide_True,
            decide_False, Bool.and_true, Bool.and_false, Bool.false_eq_true, List.any_cons,
            List.any_nil, Bool.or_false, ne_eq]
          split <;> simp_all

theorem switchStatus_none {χ : Type} (h : healther χ) (status : HealthStatus)
    (r : HealthComponentDescription) (hr : derefsNil h r = true) :
    switchStatus (h.option r.ComponentName) status r.Status = none := by
  unfold switchStatus derefsNil at *
  simp only [HealthComponentStatusOn, Bool.and_eq_true, decide_eq_true_eq,
    Option.isNone_iff_eq_none] at hr
  obtain ⟨h1, h2⟩ := hr
  simp [h2, HealthComponentStatusOn, h1]

theorem statusAfter_cons {χ : Type} (h : healther χ) (status : HealthStatus)
    (r : HealthComponentDescription) (rs : List HealthComponentDescription) :
    statusAfter h (statusAfter h status [r]) rs = statusAfter h status (r :: rs) := by
  unfold statusAfter
  simp only [HealthComponentStatusOn, HealthUnknown, HealthServing, HealthNotServing,
    List.any_cons, List.any_nil, Bool.or_false]
  by_cases h1 : r.Status = 1
  · by_cases h2 : status = 0 <;> simp [h1, h2]
  · by_cases h2 : h.isRequired r.ComponentName = true
    · simp [h1, h2]
    · by_cases h3 : status = 0 <;> simp [h1, h2, h3]

theorem foldlM_checkStep {χ : Type} (h : healther χ) (rs : List HealthComponentDescription) :
    ∀ acc : Health, rs.foldlM (checkStep h) acc =
      if rs.any (derefsNil h) then none
      else some { Status := statusAfter h acc.Status rs
                  Stats := statsAfter acc.Stats rs
                  Components := acc.Components ++ rs
                  Duration := acc.Duration } := by
  induction rs with
  | nil =>
    intro acc
    cases acc with
    | mk st sts cs d =>
      by_cases h0 : st = HealthUnknown <;>
        simp [statusAfter, statsAfter, h0]
  | cons r rs ih =>
    intro acc
    rw [List.foldlM_cons]
    by_cases hr : derefsNil h r = true
    · have hs := switchStatus_none h acc.Status r hr
      simp only [healther.option] at hs
      simp [checkStep, hs, hr]
    · have hr2 : derefsNil h r = false := by simpa using hr
      have hs := switchStatus_eq h acc.Status r hr2
      simp only [healther.option] at hs
      simp only [checkStep, hs, Option.bind_eq_bind, Option.some_bind, ih, List.any_cons, hr2,
        Bool.false_or, statusAfter_cons, statsAfter, List.foldl_cons, List.append_assoc,
        List.singleton_append]

/-! ## The counters of `Stats` -/

theorem GoMap.find_incr (m : GoMap Int) (k k2 : String) :
    GoMap.find (GoMap.incr m k) k2 =
      if k2 = k then some (GoMap.index 0 m k + 1) else GoMap.find m k2 := by
  by_cases hk : k2 = k
  · subst hk
    simp [GoMap.incr, GoMap.find_assign_self]
  · simp [GoMap.incr, GoMap.find_assign_of_ne _ _ _ _ hk, hk]

theorem GoMap.index_incr (m : GoMap Int) (k k2 : String) :
    GoMap.index 0 (GoMap.incr m k) k2 =
      if k2 = k then GoMap.index 0 m k + 1 else GoMap.index 0 m k2 := by
  unfold GoMap.index
  rw [GoMap.find_incr]
  by_cases hk : k2 = k
  · simp [hk, GoMap.index]
  · simp [hk]

theorem find_statsAfter (key : String) (rs : List HealthComponentDescription) :
    ∀ m : GoMap Int, GoMap.find (statsAfter m rs) key =
      if statusCount key rs = 0 then GoMap.find m key
      else some (GoMap.index 0 m key + (statusCount key rs : Int)) := by
  induction rs with
  | nil => intro m; simp [statsAfter, statusCount]
  | cons r rs ih =>
    intro m
    have hstep : statsAfter m (r :: rs) =
        statsAfter (GoMap.incr m (HealthComponentStatus.String r.Status)) rs := rfl
    rw [hstep, ih, GoMap.find_incr, GoMap.index_incr]
    by_cases hk : key = HealthComponentStatus.String r.Status
    · have hc : statusCount key (r :: rs) = statusCount key rs + 1 := by
        simp [statusCount, List.countP_cons, hk]
      rw [hc]
      subst hk
      by_cases h0 : statusCount (HealthComponentStatus.String r.Status) rs = 0
      · simp [h0]
      · simp only [h0, if_true, if_false, Nat.succ_ne_zero, Nat.cast_add, Nat.cast_one,
          Option.some.injEq]
        ring
    · have hk2 : ¬ HealthComponentStatus.String r.Status = key := fun e => hk e.symm
      have hc : statusCount key (r :: rs) = statusCount key rs := by
        simp [statusCount, List.countP_cons, hk2]
      rw [hc]
      simp [hk]

theorem String_eq_on (s : HealthComponentStatus) :
    HealthComponentStatus.String s = "on" ↔ s = HealthComponentStatusOn := by
  unfold HealthComponentStatus.String healthComponentsStatus
  simp only [HealthComponentStatusUnknown, HealthComponentStatusOn, HealthComponentStatusOff,
    HealthComponentStatusFail, HealthComponentStatusTimeout, List.lookup_cons, List.lookup_nil]
  by_cases h0 : s = 0
  · subst h0; decide
  by_cases h1 : s = 1
  · subst h1; decide
  by_cases h2 : s = 2
  · subst h2; decide
  by_cases h3 : s = 3
  · subst h3; decide
  by_cases h4 : s = 4
  · subst h4; decide
  have e0 : (s == 0) = false := by simpa using h0
  have e1 : (s == 1) = false := by simpa using h1
  have e2 : (s == 2) = false := by simpa using h2
  have e3 : (s == 3) = false := by simpa using h3
  have e4 : (s == 4) = false := by simpa using h4
  simp only [e0, e1, e2, e3, e4]
  constructor
  · intro h; exact absurd h (by decide)
  · intro h; exact absurd h h1

theorem String_eq_fail (s : HealthComponentStatus) :
    HealthComponentStatus.String s = "fail" ↔ s = HealthComponentStatusFail := by
  unfold HealthComponentStatus.String healthComponentsStatus
  simp only [HealthComponentStatusUnknown, HealthComponentStatusOn, HealthComponentStatusOff,
    HealthComponentStatusFail, HealthComponentStatusTimeout, List.lookup_cons, List.lookup_nil]
  by_cases h0 : s = 0
  · subst h0; decide
  by_cases h1 : s = 1
  · subst h1; decide
  by_cases h2 : s = 2
  · subst h2; decide
  by_cases h3 : s = 3
  · subst h3; decide
  by_cases h4 : s = 4
  · subst h4; decide
  have e0 : (s == 0) = false := by simpa using h0
  have e1 : (s == 1) = false := by simpa using h1
  have e2 : (s == 2) = false := by simpa using h2
  have e3 : (s == 3) = false := by simpa using h3
  have e4 : (s == 4) = false := by simpa using h4
  simp only [e0, e1, e2, e3, e4]
  constructor
  · intro h; exact absurd h (by decide)
  · intro h; exact absurd h h3

theorem statusCount_on_eq_zero (rs : List HealthComponentDescription) :
    statusCount "on" rs = 0 ↔ rs.any (fun r => decide (r.Status = HealthComponentStatusOn)) = false := by
  simp [statusCount, List.countP_eq_zero, String_eq_on]

/-! ## `healther.Check` in closed form -/

theorem fallbackStatus_statusAfter {χ : Type} (h : healther χ)
    (rs cs : List HealthComponentDescription) (d : Duration) :
    fallbackStatus { Status := statusAfter h HealthUnknown rs
                     Stats := statsAfter [] rs
                     Components := cs
                     Duration := d } = classification h rs := by
  have hon := find_statsAfter "on" rs []
  have hzero := statusCount_on_eq_zero rs
  unfold fallbackStatus statusAfter classification
  have hname : HealthComponentStatus.String HealthComponentStatusOn = "on" := by decide
  simp only [hname]
  by_cases hreq : rs.any (fun r => h.isRequired r.ComponentName &&
      decide (r.Status ≠ HealthComponentStatusOn)) = true
  · simp only [hreq, if_true]
    rfl
  · by_cases hany : rs.any (fun r => decide (r.Status = HealthComponentStatusOn)) = true
    · simp only [hreq, hany, if_true, if_false]
      rfl
    · have hcount : statusCount "on" rs = 0 := hzero.mpr (by simpa using hany)
      rw [hcount] at hon
      simp only [if_true] at hon
      simp only [hreq, hany, if_true, if_false, hon, Bool.false_eq_true]
      rfl

theorem Check_eq {χ : Type} (h : healther χ) (rs : List HealthComponentDescription)
    (d : Duration) :
    h.Check rs d =
      if rs.any (derefsNil h) then none
      else some { Status := classification h rs
                  Stats := statsAfter [] rs
                  Components := sortByDuration rs
                  Duration := d } := by
  unfold healther.Check checkLoop
  rw [foldlM_checkStep]
  by_cases hp : rs.any (derefsNil h) = true
  · simp [hp]
  · simp only [hp, if_false, Bool.false_eq_true, initialHealth, List.nil_append,
      fallbackStatus_statusAfter]

/-! ## Registries built by `New`, `Register` and `UnRegister` are consistent -/

theorem Consistent_New (χ : Type) : (New χ).Consistent := by
  intro name
  simp [New, GoMap.find]

theorem Consistent_Register {χ : Type} (h : healther χ) (hc : h.Consistent)
    (componentName : String) (health : χ) (opts : List OptionFn) :
    (h.Register componentName health opts).1.Consistent := by
  unfold healther.Register
  cases hf : GoMap.find h.healthers componentName with
  | some c => simpa using hc
  | none =>
    intro name
    by_cases hn : name = componentName
    · subst hn
      simp [GoMap.find_assign_self]
    · simpa [GoMap.find_assign_of_ne _ _ _ _ hn] using hc name

theorem Consistent_UnRegister {χ : Type} (h : healther χ) (hc : h.Consistent)
    (componentName : String) : (h.UnRegister componentName).Consistent := by
  intro name
  by_cases hn : name = componentName
  · subst hn
    simp [healther.UnRegister, GoMap.find_delete_self]
  · simpa [healther.UnRegister, GoMap.find_delete_of_ne _ _ _ hn] using hc name

theorem option_isSome_of_registered {χ : Type} (h : healther χ) (hc : h.Consistent)
    (name : String) (hr : h.registered name = true) : (h.option name).isSome = true := by
  obtain ⟨h1, h2⟩ := hc name
  unfold healther.registered at hr
  rw [h1] at hr
  unfold healther.option GoMap.index
  cases hf : GoMap.find h.componentOptions name with
  | none => simp [hf] at hr
  | some v =>
    cases v with
    | none => exact absurd hf h2
    | some o => simp

theorem no_derefsNil_of_registered {χ : Type} (h : healther χ) (hc : h.Consistent)
    (rs : List HealthComponentDescription)
    (hr : ∀ r ∈ rs, h.registered r.ComponentName = true) :
    rs.any (derefsNil h) = false := by
  rw [List.any_eq_false]
  intro r hmem
  have := option_isSome_of_registered h hc r.ComponentName (hr r hmem)
  cases ho : h.option r.ComponentName with
  | none => simp [ho] at this
  | some o => simp [derefsNil, ho]

/-! ## Classification: the verdict of `healther.Check` -/

theorem any_perm {α : Type} (p : α → Bool) {l1 l2 : List α} (hp : l1.Perm l2) :
    l1.any p = l2.any p := by
  rw [Bool.eq_iff_iff]
  simp only [List.any_eq_true]
  constructor
  · rintro ⟨x, hx, hpx⟩; exact ⟨x, hp.mem_iff.mp hx, hpx⟩
  · rintro ⟨x, hx, hpx⟩; exact ⟨x, hp.mem_iff.mpr hx, hpx⟩

theorem requiredRegistry_Consistent : requiredRegistry.Consistent :=
  Consistent_Register _ (Consistent_Register _ (Consistent_Register _
    (Consistent_New mockComponent) _ _ _) _ _ _) _ _ _

theorem optionalRegistry_Consistent : optionalRegistry.Consistent :=
  Consistent_Register _ (Consistent_Register _ (Consistent_Register _
    (Consistent_New mockComponent) _ _ _) _ _ _) _ _ _

theorem classification_eq_reference {χ : Type} (h : healther χ)
    (rs : List HealthComponentDescription) (hd : ∀ r ∈ rs, definedStatus r.Status) :
    classification h rs = referenceClassification h rs := by
  have hany : rs.any (fun r => h.isRequired r.ComponentName &&
        decide (r.Status ≠ HealthComponentStatusOn)) =
      rs.any (fun r => h.isRequired r.ComponentName && listedFailure r.Status) := by
    rw [Bool.eq_iff_iff]
    simp only [List.any_eq_true, Bool.and_eq_true, decide_eq_true_eq, listedFailure]
    constructor
    · rintro ⟨r, hr, hreq, hne⟩
      refine ⟨r, hr, hreq, ?_⟩
      rcases hd r hr with h0 | h1 | h2 | h3 | h4
      · exact Or.inr (Or.inr (Or.inr h0))
      · exact absurd h1 hne
      · exact Or.inl h2
      · exact Or.inr (Or.inl h3)
      · exact Or.inr (Or.inr (Or.inl h4))
    · rintro ⟨r, hr, hreq, hl⟩
      refine ⟨r, hr, hreq, ?_⟩
      rcases hl with h2 | h3 | h4 | h0
      · rw [h2]; decide
      · rw [h3]; decide
      · rw [h4]; decide
      · rw [h0]; decide
  unfold classification referenceClassification
  rw [hany]

/-- C1, amended: for a consistent registry and a stream of reports whose names
are all registered, `Check` returns, and its status is not serving when some
required component reports a status other than on (off, fail, timeout, unknown
or an integer that is none of the five constants), otherwise serving when some
report is on, otherwise not serving. On a stream that holds only the five defined
statuses this is the reference classification of the specification. -/
theorem Check_status_eq_classification {χ : Type} (h : healther χ) (hc : h.Consistent)
    (rs : List HealthComponentDescription)
    (hr : ∀ r ∈ rs, h.registered r.ComponentName = true) (d : Duration) :
    ∃ res, h.Check rs d = some res ∧ res.Status = classification h rs ∧
      ((∀ r ∈ rs, definedStatus r.Status) → res.Status = referenceClassification h rs) := by
  have hp := no_derefsNil_of_registered h hc rs hr
  rw [Check_eq, hp]
  refine ⟨_, rfl, rfl, ?_⟩
  intro hd
  exact classification_eq_reference h rs hd

theorem Check_status_eq_classification_witness :
    ∃ res, requiredRegistry.Check testStream 9 = some res ∧
      res.Status = classification requiredRegistry testStream ∧
      ((∀ r ∈ testStream, definedStatus r.Status) →
        res.Status = referenceClassification requiredRegistry testStream) :=
  Check_status_eq_classification requiredRegistry requiredRegistry_Consistent testStream
    (by decide) 9

/-- C1, counterexample: in the registry of three required components,
`componentA` reports the status 7 and `componentB` reports on, both names being
registered. `Check` returns not serving, while the reference classification
is serving: no required component reports off, fail, timeout or unknown. -/
theorem Check_status_ne_referenceClassification :
    requiredRegistry.Consistent ∧
    requiredRegistry.registered "componentA" = true ∧
    requiredRegistry.registered "componentB" = true ∧
    statusOf (requiredRegistry.Check undefinedStatusStream 9) = some HealthNotServing ∧
    referenceClassification requiredRegistry undefinedStatusStream = HealthServing :=
  ⟨requiredRegistry_Consistent, by decide, by decide, by decide, by decide⟩

/-! ## Arrival order -/

theorem statusAfter_perm {χ : Type} (h : healther χ) (status : HealthStatus)
    {rs rs2 : List HealthComponentDescription} (hp : rs.Perm rs2) :
    statusAfter h status rs = statusAfter h status rs2 := by
  unfold statusAfter
  rw [any_perm _ hp, any_perm (fun r => decide (r.Status = HealthComponentStatusOn)) hp]

theorem classification_perm {χ : Type} (h : healther χ)
    {rs rs2 : List HealthComponentDescription} (hp : rs.Perm rs2) :
    classification h rs = classification h rs2 := by
  unfold classification
  rw [any_perm _ hp, any_perm (fun r => decide (r.Status = HealthComponentStatusOn)) hp]

theorem find_statsAfter_perm (key : String) (m : GoMap Int)
    {rs rs2 : List HealthComponentDescription} (hp : rs.Perm rs2) :
    GoMap.find (statsAfter m rs) key = GoMap.find (statsAfter m rs2) key := by
  have hc : statusCount key rs = statusCount key rs2 := hp.countP_eq _
  rw [find_statsAfter, find_statsAfter, hc]

/-- C2: the verdict does not depend on the arrival order. For every registry
and every two streams that are permutations of each other, the loop of `Check`
ends with the same status and with a `Stats` map that has the same entry under
every key, and so does `Check` itself; in particular the loop and `Check`
return for the one stream exactly when they return for the other. -/
theorem Check_perm {χ : Type} (h : healther χ) (rs rs2 : List HealthComponentDescription)
    (hp : rs.Perm rs2) (d : Duration) :
    statusOf (checkLoop h rs) = statusOf (checkLoop h rs2) ∧
    (∀ key, statsOf (checkLoop h rs) key = statsOf (checkLoop h rs2) key) ∧
    statusOf (h.Check rs d) = statusOf (h.Check rs2 d) ∧
    (∀ key, statsOf (h.Check rs d) key = statsOf (h.Check rs2 d) key) := by
  have hany := any_perm (derefsNil h) hp
  unfold checkLoop
  rw [foldlM_checkStep, foldlM_checkStep, Check_eq, Check_eq, ← hany]
  by_cases hpanic : rs.any (derefsNil h) = true
  · simp [hpanic, statusOf, statsOf]
  · simp only [hpanic, if_false, Bool.false_eq_true, statusOf, statsOf, Option.map_some']
    refine ⟨?_, ?_, ?_, ?_⟩
    · rw [statusAfter_perm h _ hp]
    · intro key
      rw [find_statsAfter_perm key _ hp]
    · rw [classification_perm h hp]
    · intro key
      rw [find_statsAfter_perm key _ hp]

theorem Check_perm_witness :
    statusOf (checkLoop optionalRegistry testStream) =
      statusOf (checkLoop optionalRegistry testStreamReordered) ∧
    (∀ key, statsOf (checkLoop optionalRegistry testStream) key =
      statsOf (checkLoop optionalRegistry testStreamReordered) key) ∧
    statusOf (optionalRegistry.Check testStream 9) =
      statusOf (optionalRegistry.Check testStreamReordered 9) ∧
    (∀ key, statsOf (optionalRegistry.Check testStream 9) key =
      statsOf (optionalRegistry.Check testStreamReordered 9) key) :=
  Check_perm optionalRegistry testStream testStreamReordered (by decide) 9

/-! ## Required failures and required successes -/

/-- C3: for a consistent registry and a stream of reports of registered
components in which some required component reports off, fail, timeout or
unknown, `Check` returns not serving, wherever that report stands in the stream
and whatever the other reports are. -/
theorem Check_required_failure {χ : Type} (h : healther χ) (hc : h.Consistent)
    (rs : List HealthComponentDescription)
    (hr : ∀ r ∈ rs, h.registered r.ComponentName = true)
    (hfail : ∃ r ∈ rs, h.isRequired r.ComponentName = true ∧ listedFailure r.Status = true)
    (d : Duration) :
    ∃ res, h.Check rs d = some res ∧ res.Status = HealthNotServing := by
  have hp := no_derefsNil_of_registered h hc rs hr
  rw [Check_eq, hp]
  refine ⟨_, rfl, ?_⟩
  obtain ⟨r, hmem, hreq, hl⟩ := hfail
  have hne : r.Status ≠ HealthComponentStatusOn := by
    simp only [listedFailure, decide_eq_true_eq] at hl
    rcases hl with h2 | h3 | h4 | h0
    · rw [h2]; decide
    · rw [h3]; decide
    · rw [h4]; decide
    · rw [h0]; decide
  have hany : rs.any (fun r => h.isRequired r.ComponentName &&
      decide (r.Status ≠ HealthComponentStatusOn)) = true := by
    rw [List.any_eq_true]
    exact ⟨r, hmem, by simp [hreq, hne]⟩
  simp only [classification, hany, if_true]

theorem Check_required_failure_witness :
    ∃ res, requiredRegistry.Check testStreamReordered 9 = some res ∧
      res.Status = HealthNotServing :=
  Check_required_failure requiredRegistry requiredRegistry_Consistent testStreamReordered
    (by decide) ⟨report "componentB" HealthComponentStatusOff 1, by decide, by decide, by decide⟩ 9

/-- C4, amended: for a consistent registry and a stream of reports of
registered components in which some required component reports on and every
report of a required component is on, `Check` returns serving, whatever the
optional components report. Moreover a report of an optional component with a
status other than on never changes the status: `Check` gives the same status
with the report, at any place of the stream, as without it. -/
theorem Check_required_on {χ : Type} (h : healther χ) (hc : h.Consistent)
    (rs : List HealthComponentDescription)
    (hr : ∀ r ∈ rs, h.registered r.ComponentName = true)
    (hon : ∃ r ∈ rs, h.isRequired r.ComponentName = true ∧ r.Status = HealthComponentStatusOn)
    (hnf : ∀ r ∈ rs, h.isRequired r.ComponentName = true → r.Status = HealthComponentStatusOn)
    (d : Duration) :
    (∃ res, h.Check rs d = some res ∧ res.Status = HealthServing) ∧
    (∀ (rs1 rs2 : List HealthComponentDescription) (r : HealthComponentDescription),
      h.isOptional r.ComponentName = true → r.Status ≠ HealthComponentStatusOn →
      statusOf (h.Check (rs1 ++ r :: rs2) d) = statusOf (h.Check (rs1 ++ rs2) d)) := by
  constructor
  · have hp := no_derefsNil_of_registered h hc rs hr
    rw [Check_eq, hp]
    refine ⟨_, rfl, ?_⟩
    have hany : rs.any (fun r => h.isRequired r.ComponentName &&
        decide (r.Status ≠ HealthComponentStatusOn)) = false := by
      rw [List.any_eq_false]
      intro r hmem
      by_cases hreq : h.isRequired r.ComponentName = true
      · simp [hnf r hmem hreq]
      · simp [hreq]
    have hany2 : rs.any (fun r => decide (r.Status = HealthComponentStatusOn)) = true := by
      obtain ⟨r, hmem, _, hs⟩ := hon
      rw [List.any_eq_true]
      exact ⟨r, hmem, by simp [hs]⟩
    simp only [classification, hany, hany2, if_true, if_false, Bool.false_eq_true]
  · intro rs1 rs2 r hopt hne
    have hsome : ∃ o, h.option r.ComponentName = some o ∧ o.Type_ ≠ ComponentPresentRequired := by
      unfold healther.isOptional at hopt
      cases ho : h.option r.ComponentName with
      | none => simp [ho] at hopt
      | some o => exact ⟨o, rfl, by simpa [ho] using hopt⟩
    obtain ⟨o, ho, hty⟩ := hsome
    have hnil : derefsNil h r = false := by simp [derefsNil, ho]
    have hreq : h.isRequired r.ComponentName = false := by
      simp [healther.isRequired, ho, hty]
    have hon : decide (r.Status = HealthComponentStatusOn) = false := by simpa using hne
    rw [Check_eq, Check_eq]
    simp only [classification, List.any_append, List.any_cons, hnil, hreq, hon, Bool.false_or,
      Bool.false_and]
    by_cases hpanic : (rs1.any (derefsNil h) || rs2.any (derefsNil h)) = true
    · simp only [hpanic, if_true]
    · simp only [hpanic, if_false, Bool.false_eq_true, statusOf, Option.map_some']

theorem Check_required_on_witness :
    (∃ res, optionalRegistry.Check testStream 9 = some res ∧ res.Status = HealthServing) ∧
    (∀ (rs1 rs2 : List HealthComponentDescription) (r : HealthComponentDescription),
      optionalRegistry.isOptional r.ComponentName = true → r.Status ≠ HealthComponentStatusOn →
      statusOf (optionalRegistry.Check (rs1 ++ r :: rs2) 9) =
        statusOf (optionalRegistry.Check (rs1 ++ rs2) 9)) :=
  Check_required_on optionalRegistry optionalRegistry_Consistent testStream (by decide)
    ⟨report "componentA" HealthComponentStatusOn 500, by decide, by decide, by decide⟩
    (by decide) 9

/-- C4, counterexample: in the registry of three required components,
`componentA` reports on and `componentB` reports the status 9. A required
component is on and no required component reports off, fail, timeout or
unknown, yet `Check` returns not serving. -/
theorem Check_required_on_undefined_status :
    requiredRegistry.Consistent ∧
    (∀ r ∈ onThenUndefinedStream, requiredRegistry.registered r.ComponentName = true) ∧
    (∃ r ∈ onThenUndefinedStream, requiredRegistry.isRequired r.ComponentName = true ∧
      r.Status = HealthComponentStatusOn) ∧
    (∀ r ∈ onThenUndefinedStream, requiredRegistry.isRequired r.ComponentName = true →
      listedFailure r.Status = false) ∧
    statusOf (requiredRegistry.Check onThenUndefinedStream 9) = some HealthNotServing :=
  ⟨requiredRegistry_Consistent, by decide, by decide, by decide, by decide⟩

/-! ## The probe runner -/

theorem wrapHealthCheck_after_fails {W : Type} (clock : W → Int) (ctx : Context W)
    (start : Int) (name : String) (healther : ComponentHealther W) (n : Nat) :
    ∀ (w : W) (fuel : Nat), n < fuel →
      (∀ i, i < n → (resultOf ctx healther i w).Status = HealthComponentStatusFail) →
      (∀ i, i < n → ctx.Done (worldAfter ctx healther (i + 1) w) = false) →
      (resultOf ctx healther n w).Status ≠ HealthComponentStatusFail →
      wrapHealthCheck clock ctx start name healther fuel w =
        some ({ ComponentName := name
                Status := (resultOf ctx healther n w).Status
                Description := (resultOf ctx healther n w).Description
                Stats := (resultOf ctx healther n w).Stats
                Duration := clock (worldAfter ctx healther (n + 1) w) - start },
              worldAfter ctx healther (n + 1) w, n + 1) := by
  induction n with
  | zero =>
    intro w fuel hfuel _ _ hlast
    obtain ⟨f, rfl⟩ : ∃ f, fuel = f + 1 := ⟨fuel - 1, by omega⟩
    have hlast2 : ¬ (healther.Check ctx w).1.Status = HealthComponentStatusFail := hlast
    simp [wrapHealthCheck, hlast2, resultOf, worldAfter]
  | succ n ih =>
    intro w fuel hfuel hfail hdone hlast
    obtain ⟨f, rfl⟩ : ∃ f, fuel = f + 1 := ⟨fuel - 1, by omega⟩
    have h0 : (healther.Check ctx w).1.Status = HealthComponentStatusFail :=
      hfail 0 (Nat.succ_pos n)
    have hd0 : ctx.Done (healther.Check ctx w).2 = false := hdone 0 (Nat.succ_pos n)
    have hrec := ih (healther.Check ctx w).2 f (by omega)
      (fun i hi => hfail (i + 1) (by omega))
      (fun i hi => hdone (i + 1) (by omega))
      hlast
    rw [wrapHealthCheck]
    simp only [h0, if_true, hd0, Bool.false_eq_true, if_false, hrec]
    rfl

theorem wrapHealthCheck_needs_fuel {W : Type} (clock : W → Int) (ctx : Context W)
    (start : Int) (name : String) (healther : ComponentHealther W) (n : Nat) :
    ∀ (w : W),
      (∀ i, i < n → (resultOf ctx healther i w).Status = HealthComponentStatusFail) →
      (∀ i, i < n → ctx.Done (worldAfter ctx healther (i + 1) w) = false) →
      wrapHealthCheck clock ctx start name healther n w = none := by
  induction n with
  | zero => intro w _ _; rfl
  | succ n ih =>
    intro w hfail hdone
    have h0 : (healther.Check ctx w).1.Status = HealthComponentStatusFail :=
      hfail 0 (Nat.succ_pos n)
    have hd0 : ctx.Done (healther.Check ctx w).2 = false := hdone 0 (Nat.succ_pos n)
    have hrec := ih (healther.Check ctx w).2
      (fun i hi => hfail (i + 1) (by omega))
      (fun i hi => hdone (i + 1) (by omega))
    rw [wrapHealthCheck]
    simp only [h0, if_true, hd0, Bool.false_eq_true, if_false, hrec]

theorem wrapHealthCheck_deadline {W : Type} (clock : W → Int) (ctx : Context W)
    (start : Int) (name : String) (healther : ComponentHealther W) (n : Nat) :
    ∀ (w : W) (fuel : Nat), n < fuel →
      (∀ i, i ≤ n → (resultOf ctx healther i w).Status = HealthComponentStatusFail) →
      (∀ i, i < n → ctx.Done (worldAfter ctx healther (i + 1) w) = false) →
      ctx.Done (worldAfter ctx healther (n + 1) w) = true →
      wrapHealthCheck clock ctx start name healther fuel w =
        some (timeoutDescription clock ctx start name (worldAfter ctx healther (n + 1) w),
              worldAfter ctx healther (n + 1) w, n + 1) := by
  induction n with
  | zero =>
    intro w fuel hfuel hfail _ hlast
    obtain ⟨f, rfl⟩ : ∃ f, fuel = f + 1 := ⟨fuel - 1, by omega⟩
    have h0 : (healther.Check ctx w).1.Status = HealthComponentStatusFail :=
      hfail 0 (Nat.le_refl 0)
    have hd0 : ctx.Done (healther.Check ctx w).2 = true := hlast
    simp [wrapHealthCheck, h0, hd0, worldAfter]
  | succ n ih =>
    intro w fuel hfuel hfail hdone hlast
    obtain ⟨f, rfl⟩ : ∃ f, fuel = f + 1 := ⟨fuel - 1, by omega⟩
    have h0 : (healther.Check ctx w).1.Status = HealthComponentStatusFail :=
      hfail 0 (Nat.zero_le _)
    have hd0 : ctx.Done (healther.Check ctx w).2 = false := hdone 0 (Nat.succ_pos n)
    have hrec := ih (healther.Check ctx w).2 f (by omega)
      (fun i hi => hfail (i + 1) (by omega))
      (fun i hi => hdone (i + 1) (by omega))
      hlast
    rw [wrapHealthCheck]
    simp only [h0, if_true, hd0, Bool.false_eq_true, if_false, hrec]
    rfl

theorem wrapHealthCheck_ne_Fail {W : Type} (clock : W → Int) (ctx : Context W)
    (start : Int) (name : String) (healther : ComponentHealther W) (fuel : Nat) :
    ∀ (w : W) (res : HealthComponentDescription × W × Nat),
      wrapHealthCheck clock ctx start name healther fuel w = some res →
      res.1.Status ≠ HealthComponentStatusFail := by
  induction fuel with
  | zero => intro w res hres; simp [wrapHealthCheck] at hres
  | succ f ih =>
    intro w res hres
    rw [wrapHealthCheck] at hres
    by_cases h0 : (healther.Check ctx w).1.Status = HealthComponentStatusFail
    · by_cases hd0 : ctx.Done (healther.Check ctx w).2 = true
      · simp only [h0, if_true, hd0, Option.some.injEq] at hres
        rw [← hres]
        simp [timeoutDescription, HealthComponentStatusTimeout, HealthComponentStatusFail]
      · simp only [h0, if_true, hd0, Bool.false_eq_true, if_false] at hres
        cases hrec : wrapHealthCheck clock ctx start name healther f (healther.Check ctx w).2 with
        | none => simp [hrec] at hres
        | some val =>
          obtain ⟨report, w2, calls⟩ := val
          simp only [hrec, Option.some.injEq] at hres
          rw [← hres]
          exact ih _ (report, w2, calls) hrec
    · simp only [h0, if_false, Option.some.injEq] at hres
      rw [← hres]
      exact h0

theorem gatheringTask_ne_Fail {W : Type} (clock : W → Int) (ctx : Context W)
    (start : Int) (name : String) (healther : ComponentHealther W) (fuel : Nat) (w : W)
    (fired : Option W) (res : HealthComponentDescription × W)
    (hres : gatheringTask clock ctx start name healther fuel w fired = some res) :
    res.1.Status ≠ HealthComponentStatusFail := by
  unfold gatheringTask at hres
  cases hw : wrapHealthCheck clock ctx start name healther fuel w with
  | none => simp [hw] at hres
  | some val =>
    obtain ⟨report, w1, calls⟩ := val
    have hne := wrapHealthCheck_ne_Fail clock ctx start name healther fuel w _ hw
    cases fired with
    | none =>
      simp only [hw, Option.some.injEq] at hres
      rw [← hres]; exact hne
    | some w2 =>
      by_cases hd : ctx.Done w2 = true
      · simp only [hw, hd, if_true, Option.some.injEq] at hres
        rw [← hres]
        simp [timeoutDescription, HealthComponentStatusTimeout, HealthComponentStatusFail]
      · simp only [hw, hd, Bool.false_eq_true, if_false, Option.some.injEq] at hres
        rw [← hres]; exact hne

/-- C5: when the first `n` invocations of the checker return fail, the
context is not done at any of the `n` tests made after them, and invocation
`n + 1` returns a state whose status `s` is not fail, then `wrapHealthCheck`
returns, whatever bound above `n` is put on its recursion: it has invoked the
checker exactly `n + 1` times and its report carries the component name and the
status, description and stats of that last state. With `n = 0` the first
state is reported. A recursion bounded by `n` does not reach a report. -/
theorem wrapHealthCheck_retries_while_Fail {W : Type} (clock : W → Int) (ctx : Context W)
    (start : Int) (name : String) (healther : ComponentHealther W) (n : Nat) (w : W)
    (hfail : ∀ i, i < n → (resultOf ctx healther i w).Status = HealthComponentStatusFail)
    (hdone : ∀ i, i < n → ctx.Done (worldAfter ctx healther (i + 1) w) = false)
    (hlast : (resultOf ctx healther n w).Status ≠ HealthComponentStatusFail) :
    (∀ fuel, n < fuel →
      wrapHealthCheck clock ctx start name healther fuel w =
        some ({ ComponentName := name
                Status := (resultOf ctx healther n w).Status
                Description := (resultOf ctx healther n w).Description
                Stats := (resultOf ctx healther n w).Stats
                Duration := clock (worldAfter ctx healther (n + 1) w) - start },
              worldAfter ctx healther (n + 1) w, n + 1)) ∧
    wrapHealthCheck clock ctx start name healther n w = none :=
  ⟨fun fuel hfuel =>
      wrapHealthCheck_after_fails clock ctx start name healther n w fuel hfuel hfail hdone hlast,
    wrapHealthCheck_needs_fuel clock ctx start name healther n w hfail hdone⟩

theorem wrapHealthCheck_retries_while_Fail_witness :
    (∀ fuel, 5 < fuel →
      wrapHealthCheck mockWorld.now (withTimeout (1000 * millisecond)) 0 "componentC"
          componentC.Check fuel { now := 0, countFail := 5 } =
        some ({ ComponentName := "componentC"
                Status := (resultOf (withTimeout (1000 * millisecond)) componentC.Check 5
                  { now := 0, countFail := 5 }).Status
                Description := (resultOf (withTimeout (1000 * millisecond)) componentC.Check 5
                  { now := 0, countFail := 5 }).Description
                Stats := (resultOf (withTimeout (1000 * millisecond)) componentC.Check 5
                  { now := 0, countFail := 5 }).Stats
                Duration := mockWorld.now (worldAfter (withTimeout (1000 * millisecond))
                  componentC.Check (5 + 1) { now := 0, countFail := 5 }) - 0 },
              worldAfter (withTimeout (1000 * millisecond)) componentC.Check (5 + 1)
                { now := 0, countFail := 5 }, 5 + 1)) ∧
    wrapHealthCheck mockWorld.now (withTimeout (1000 * millisecond)) 0 "componentC"
      componentC.Check 5 { now := 0, countFail := 5 } = none :=
  wrapHealthCheck_retries_while_Fail mockWorld.now (withTimeout (1000 * millisecond)) 0
    "componentC" componentC.Check 5 { now := 0, countFail := 5 }
    (by decide) (by decide) (by decide)

theorem Check_notServing_of_required {χ : Type} (h : healther χ) (hc : h.Consistent)
    (rs : List HealthComponentDescription)
    (hr : ∀ r ∈ rs, h.registered r.ComponentName = true)
    (r : HealthComponentDescription) (hmem : r ∈ rs)
    (hreq : h.isRequired r.ComponentName = true) (hne : r.Status ≠ HealthComponentStatusOn)
    (d : Duration) :
    ∃ res, h.Check rs d = some res ∧ res.Status = HealthNotServing := by
  have hp := no_derefsNil_of_registered h hc rs hr
  rw [Check_eq, hp]
  refine ⟨_, rfl, ?_⟩
  have hany : rs.any (fun r => h.isRequired r.ComponentName &&
      decide (r.Status ≠ HealthComponentStatusOn)) = true := by
    rw [List.any_eq_true]
    exact ⟨r, hmem, by simp [hreq, hne]⟩
  simp only [classification, hany, if_true]

/-- C6: when an invocation of the checker returns fail and the context is done
at the test that follows (the earlier invocations, if any, having failed with
the context not yet done), `wrapHealthCheck` makes no further invocation and
returns a report with the component name, the status timeout, the error message
of the context as description and no stats: nothing of the failed state is
carried over. If the component is required, `Check` over any stream of
registered components that holds this report returns not serving. -/
theorem wrapHealthCheck_Fail_when_done {W : Type} (clock : W → Int) (ctx : Context W)
    (start : Int) (name : String) (healther : ComponentHealther W) (n : Nat) (w : W)
    (hfail : ∀ i, i ≤ n → (resultOf ctx healther i w).Status = HealthComponentStatusFail)
    (hdone : ∀ i, i < n → ctx.Done (worldAfter ctx healther (i + 1) w) = false)
    (hlast : ctx.Done (worldAfter ctx healther (n + 1) w) = true) :
    (∀ fuel, n < fuel →
      wrapHealthCheck clock ctx start name healther fuel w =
        some ({ ComponentName := name
                Status := HealthComponentStatusTimeout
                Description := ctx.Err (worldAfter ctx healther (n + 1) w)
                Stats := []
                Duration := clock (worldAfter ctx healther (n + 1) w) - start },
              worldAfter ctx healther (n + 1) w, n + 1)) ∧
    (∀ (χ : Type) (h : health.healther χ) (rs : List HealthComponentDescription) (d : Duration),
      h.Consistent → (∀ r ∈ rs, h.registered r.ComponentName = true) →
      timeoutDescription clock ctx start name (worldAfter ctx healther (n + 1) w) ∈ rs →
      h.isRequired name = true →
      ∃ res, h.Check rs d = some res ∧ res.Status = HealthNotServing) := by
  constructor
  · intro fuel hfuel
    exact wrapHealthCheck_deadline clock ctx start name healther n w fuel hfuel hfail hdone hlast
  · intro χ h rs d hc hr hmem hreq
    exact Check_notServing_of_required h hc rs hr _ hmem hreq
      (by simp [timeoutDescription, HealthComponentStatusTimeout, HealthComponentStatusOn]) d

theorem wrapHealthCheck_Fail_when_done_witness :
    (∀ fuel, 1 < fuel →
      wrapHealthCheck mockWorld.now (withTimeout (800 * millisecond)) 0 "componentA"
          componentA.Check fuel { now := 0, countFail := 5 } =
        some ({ ComponentName := "componentA"
                Status := HealthComponentStatusTimeout
                Description := (withTimeout (800 * millisecond)).Err
                  (worldAfter (withTimeout (800 * millisecond)) componentA.Check (1 + 1)
                    { now := 0, countFail := 5 })
                Stats := []
                Duration := mockWorld.now (worldAfter (withTimeout (800 * millisecond))
                  componentA.Check (1 + 1) { now := 0, countFail := 5 }) - 0 },
              worldAfter (withTimeout (800 * millisecond)) componentA.Check (1 + 1)
                { now := 0, countFail := 5 }, 1 + 1)) ∧
    (∀ (χ : Type) (h : healther χ) (rs : List HealthComponentDescription) (d : Duration),
      h.Consistent → (∀ r ∈ rs, h.registered r.ComponentName = true) →
      timeoutDescription mockWorld.now (withTimeout (800 * millisecond)) 0 "componentA"
        (worldAfter (withTimeout (800 * millisecond)) componentA.Check (1 + 1)
          { now := 0, countFail := 5 }) ∈ rs →
      h.isRequired "componentA" = true →
      ∃ res, h.Check rs d = some res ∧ res.Status = HealthNotServing) :=
  wrapHealthCheck_Fail_when_done mockWorld.now (withTimeout (800 * millisecond)) 0
    "componentA" componentA.Check 1 { now := 0, countFail := 5 }
    (by decide) (by decide) (by decide)

theorem statusCount_fail_eq_zero (rs : List HealthComponentDescription)
    (hne : ∀ r ∈ rs, r.Status ≠ HealthComponentStatusFail) : statusCount "fail" rs = 0 := by
  simp only [statusCount, List.countP_eq_zero, beq_iff_eq, String_eq_fail]
  exact hne

theorem mem_sortByDuration (c : HealthComponentDescription)
    (rs : List HealthComponentDescription) : c ∈ sortByDuration rs ↔ c ∈ rs :=
  (List.perm_insertionSort _ rs).mem_iff

/-- C7: no report of the probe runner has the status fail. Whenever
`wrapHealthCheck` returns a report its status is not fail, and so is the status
of every report a dispatcher goroutine sends. Therefore, for a stream made of
reports sent by dispatcher goroutines, every result of `Check` has no entry
under the key "fail" in `Stats` (the count read there is 0) and no entry of
`Components` with the status fail. -/
theorem no_Fail_report {W : Type} (clock : W → Int) (ctx : Context W) (start : Int) :
    (∀ (name : String) (healther : ComponentHealther W) (fuel : Nat) (w : W)
        (res : HealthComponentDescription × W × Nat),
      wrapHealthCheck clock ctx start name healther fuel w = some res →
      res.1.Status ≠ HealthComponentStatusFail) ∧
    (∀ (χ : Type) (h : healther χ) (rs : List HealthComponentDescription) (d : Duration)
        (res : Health),
      (∀ r ∈ rs, ∃ (name : String) (healther : ComponentHealther W) (fuel : Nat) (w : W)
          (fired : Option W) (w1 : W),
        gatheringTask clock ctx start name healther fuel w fired = some (r, w1)) →
      h.Check rs d = some res →
      GoMap.find res.Stats "fail" = none ∧ GoMap.index 0 res.Stats "fail" = 0 ∧
      ∀ c ∈ res.Components, c.Status ≠ HealthComponentStatusFail) := by
  constructor
  · intro name healther fuel w res hres
    exact wrapHealthCheck_ne_Fail clock ctx start name healther fuel w res hres
  · intro χ h rs d res htask hres
    have hne : ∀ r ∈ rs, r.Status ≠ HealthComponentStatusFail := by
      intro r hmem
      obtain ⟨name, healther, fuel, w, fired, w1, hsent⟩ := htask r hmem
      exact gatheringTask_ne_Fail clock ctx start name healther fuel w fired _ hsent
    rw [Check_eq] at hres
    by_cases hpanic : rs.any (derefsNil h) = true
    · simp [hpanic] at hres
    · simp only [hpanic, Bool.false_eq_true, if_false, Option.some.injEq] at hres
      have hfind : GoMap.find (statsAfter [] rs) "fail" = none := by
        rw [find_statsAfter, statusCount_fail_eq_zero rs hne]
        rfl
      rw [← hres]
      refine ⟨hfind, ?_, ?_⟩
      · simp only [GoMap.index, hfind, Option.getD_none]
      · intro c hc
        exact hne c ((mem_sortByDuration c rs).mp hc)

theorem no_Fail_report_witness :
    requiredRegistry.Check ctxTestStream (1000 * millisecond) = some ctxTestHealth ∧
    GoMap.find ctxTestHealth.Stats "fail" = none ∧
    GoMap.index 0 ctxTestHealth.Stats "fail" = 0 ∧
    ∀ c ∈ ctxTestHealth.Components, c.Status ≠ HealthComponentStatusFail :=
  ⟨by decide,
    (no_Fail_report mockWorld.now (withTimeout (800 * millisecond)) 0).2 mockComponent
      requiredRegistry ctxTestStream (1000 * millisecond) ctxTestHealth
      (by
        intro r hr
        simp only [ctxTestStream, List.mem_cons, List.mem_singleton, List.not_mem_nil,
          or_false] at hr
        rcases hr with rfl | rfl | rfl
        · exact ⟨"componentB", componentB.Check, 1, { now := 0, countFail := 0 }, none,
            { now := 500000, countFail := 0 }, by decide⟩
        · exact ⟨"componentC", componentC.Check, 1, { now := 0, countFail := 0 }, none,
            { now := 500000, countFail := 0 }, by decide⟩
        · exact ⟨"componentA", componentA.Check, 2, { now := 0, countFail := 5 }, none,
            { now := 1000 * millisecond, countFail := 3 }, by decide⟩)
      (by decide)⟩

/-- C8, on the code: a context with a deadline of 100 ms is already done
when a goroutine of the dispatcher starts at 200 ms, for a checker that
sleeps 500 ms and then reports on. The goroutine sends nothing before the
probe has returned (a probe that is given no invocation yields no report),
and what it sends, the timeout report or the report of the probe, it sends
at 700 ms, after the checker has been invoked and has returned. -/
theorem gatheringTask_waits_for_probe :
    (withTimeout (100 * millisecond)).Done { now := 200 * millisecond, countFail := 0 } = true ∧
    gatheringTask mockWorld.now (withTimeout (100 * millisecond)) 0 "componentA"
        componentA.Check 0 { now := 200 * millisecond, countFail := 0 }
        (some { now := 200 * millisecond, countFail := 0 }) = none ∧
    gatheringTask mockWorld.now (withTimeout (100 * millisecond)) 0 "componentA"
        componentA.Check 1 { now := 200 * millisecond, countFail := 0 }
        (some { now := 700 * millisecond, countFail := 0 }) =
      some ({ ComponentName := "componentA", Status := HealthComponentStatusTimeout,
              Description := "context deadline exceeded", Stats := [],
              Duration := 700 * millisecond },
            { now := 700 * millisecond, countFail := 0 }) ∧
    gatheringTask mockWorld.now (withTimeout (100 * millisecond)) 0 "componentA"
        componentA.Check 1 { now := 200 * millisecond, countFail := 0 } none =
      some ({ ComponentName := "componentA", Status := HealthComponentStatusOn,
              Description := "start work on port 934534", Stats := [],
              Duration := 700 * millisecond },
            { now := 700 * millisecond, countFail := 0 }) :=
  ⟨by decide, by decide, by decide, by decide⟩

/-! ## Registration -/

/-- C9: registering a name that is already registered returns the error
"component ... already registered" and the registry is the one before the
call: the checker and the option stored under that name and all the other
entries are kept, whatever checker and options are passed. -/
theorem Register_registered {χ : Type} (h : healther χ) (componentName : String)
    (health : χ) (opts : List OptionFn) (hr : h.registered componentName = true) :
    h.Register componentName health opts = (h, some (alreadyRegistered componentName)) := by
  unfold healther.registered at hr
  unfold healther.Register
  cases hf : GoMap.find h.healthers componentName with
  | none => simp [hf] at hr
  | some c => rfl

theorem Register_registered_witness :
    requiredRegistry.Register "componentA" componentC [SetOptional] =
      (requiredRegistry, some (alreadyRegistered "componentA")) :=
  Register_registered requiredRegistry "componentA" componentC [SetOptional] (by decide)

theorem applyOptions_Optional (opts : List OptionFn)
    (hkeep : ∀ o ∈ opts, ∀ c : componentOption,
      c.Type_ = ComponentPresentOptional → (o c).Type_ = ComponentPresentOptional) :
    ∀ c : componentOption, c.Type_ = ComponentPresentOptional →
      (opts.foldl (fun comOpt opt => opt comOpt) c).Type_ = ComponentPresentOptional := by
  induction opts with
  | nil => intro c hc; exact hc
  | cons o opts ih =>
    intro c hc
    rw [List.foldl_cons]
    exact ih (fun o2 h2 => hkeep o2 (List.mem_cons_of_mem _ h2)) (o c)
      (hkeep o (List.mem_cons_self _ _) c hc)

theorem applyOptions_of_mem (opts : List OptionFn) (hmem : SetOptional ∈ opts)
    (hkeep : ∀ o ∈ opts, ∀ c : componentOption,
      c.Type_ = ComponentPresentOptional → (o c).Type_ = ComponentPresentOptional) :
    ∀ c : componentOption,
      (opts.foldl (fun comOpt opt => opt comOpt) c).Type_ = ComponentPresentOptional := by
  induction opts with
  | nil => simp at hmem
  | cons o opts ih =>
    intro c
    rw [List.foldl_cons]
    rcases List.mem_cons.mp hmem with heq | htail
    · subst heq
      exact applyOptions_Optional opts (fun o2 h2 => hkeep o2 (List.mem_cons_of_mem _ h2)) _ rfl
    · exact ih htail (fun o2 h2 => hkeep o2 (List.mem_cons_of_mem _ h2)) _

/-- C10: registering a name that is not yet registered returns no error;
afterwards the name maps to the given checker and to the option obtained by
applying the passed options in order to a fresh one, which is required when no
option is passed and optional when `SetOptional()` is among the options
(`SetOptional` being the only option the package offers, the options passed
with it are taken not to reset an optional type); the entries of both maps
under every other name are unchanged. -/
theorem Register_fresh {χ : Type} (h : healther χ) (componentName : String)
    (health : χ) (opts : List OptionFn) (hr : h.registered componentName = false) :
    (h.Register componentName health opts).2 = none ∧
    GoMap.find (h.Register componentName health opts).1.healthers componentName = some health ∧
    (h.Register componentName health opts).1.option componentName = some (applyOptions opts) ∧
    (opts = [] → (applyOptions opts).Type_ = ComponentPresentRequired ∧
      (h.Register componentName health opts).1.isRequired componentName = true) ∧
    (SetOptional ∈ opts →
      (∀ o ∈ opts, ∀ c : componentOption,
        c.Type_ = ComponentPresentOptional → (o c).Type_ = ComponentPresentOptional) →
      (applyOptions opts).Type_ = ComponentPresentOptional ∧
      (h.Register componentName health opts).1.isOptional componentName = true) ∧
    (∀ other, other ≠ componentName →
      GoMap.find (h.Register componentName health opts).1.healthers other =
        GoMap.find h.healthers other ∧
      GoMap.find (h.Register componentName health opts).1.componentOptions other =
        GoMap.find h.componentOptions other) := by
  have hf : GoMap.find h.healthers componentName = none := by
    unfold healther.registered at hr
    cases hf : GoMap.find h.healthers componentName with
    | none => rfl
    | some c => simp [hf] at hr
  have hreg : h.Register componentName health opts =
      ({ healthers := GoMap.assign h.healthers componentName health,
         componentOptions :=
           GoMap.assign h.componentOptions componentName (some (applyOptions opts)) },
       none) := by
    unfold healther.Register
    rw [hf]
  have hopt : (h.Register componentName health opts).1.option componentName =
      some (applyOptions opts) := by
    rw [hreg]
    simp [healther.option, GoMap.index, GoMap.find_assign_self]
  refine ⟨by rw [hreg], by rw [hreg]; exact GoMap.find_assign_self _ _ _, hopt, ?_, ?_, ?_⟩
  · intro hnil
    subst hnil
    refine ⟨rfl, ?_⟩
    unfold healther.isRequired
    rw [hopt]
    rfl
  · intro hmem hkeep
    have hty := applyOptions_of_mem opts hmem hkeep { Type_ := 0 }
    refine ⟨hty, ?_⟩
    unfold healther.isOptional
    rw [hopt]
    have hty2 : (applyOptions opts).Type_ = ComponentPresentOptional := hty
    simp [hty2, ComponentPresentOptional, ComponentPresentRequired]
  · intro other hne
    rw [hreg]
    exact ⟨GoMap.find_assign_of_ne _ _ _ _ hne, GoMap.find_assign_of_ne _ _ _ _ hne⟩

theorem Register_fresh_witness :
    ((New mockComponent).Register "componentB" componentB [SetOptional]).2 = none ∧
    GoMap.find ((New mockComponent).Register "componentB" componentB [SetOptional]).1.healthers
      "componentB" = some componentB ∧
    ((New mockComponent).Register "componentB" componentB [SetOptional]).1.isOptional
      "componentB" = true ∧
    ((New mockComponent).Register "componentB" componentB []).1.isRequired "componentB" = true :=
  ⟨(Register_fresh (New mockComponent) "componentB" componentB [SetOptional] (by decide)).1,
   (Register_fresh (New mockComponent) "componentB" componentB [SetOptional] (by decide)).2.1,
   ((Register_fresh (New mockComponent) "componentB" componentB [SetOptional]
      (by decide)).2.2.2.2.1 (List.mem_singleton.mpr rfl)
      (by
        intro o ho c _
        rw [List.mem_singleton.mp ho]
        rfl)).2,
   ((Register_fresh (New mockComponent) "componentB" componentB [] (by decide)).2.2.2.1 rfl).2⟩

/-! ## Unregistration -/

theorem GoMap.delete_of_find_none {V : Type} (m : GoMap V) (k : String)
    (hf : GoMap.find m k = none) : GoMap.delete m k = m := by
  induction m with
  | nil => rfl
  | cons e m ih =>
    obtain ⟨a, b⟩ := e
    by_cases hk : k = a
    · subst hk
      simp [GoMap.find, List.lookup_cons] at hf
    · have hk2 : (k == a) = false := by simpa using hk
      have hf2 : GoMap.find m k = none := by
        simpa [GoMap.find, List.lookup_cons, hk2] using hf
      have hne : ¬ a = k := fun e => hk e.symm
      have ih2 := ih hf2
      unfold GoMap.delete at ih2 ⊢
      simp [List.filter_cons, hne, ih2]

/-- C11: `UnRegister` is an idempotent removal. After `UnRegister(name)` the
name is a key of neither map and the entries of both maps under every other
name are unchanged; on a name that is a key of neither map the registry is left
as it was, so a second call changes nothing; the call has no error to return;
and a `Register` of that name afterwards returns no error and stores the
given checker. -/
theorem UnRegister_removes {χ : Type} (h : healther χ) (componentName : String) :
    GoMap.find (h.UnRegister componentName).healthers componentName = none ∧
    GoMap.find (h.UnRegister componentName).componentOptions componentName = none ∧
    (∀ other, other ≠ componentName →
      GoMap.find (h.UnRegister componentName).healthers other = GoMap.find h.healthers other ∧
      GoMap.find (h.UnRegister componentName).componentOptions other =
        GoMap.find h.componentOptions other) ∧
    (GoMap.find h.healthers componentName = none →
      GoMap.find h.componentOptions componentName = none → h.UnRegister componentName = h) ∧
    (h.UnRegister componentName).UnRegister componentName = h.UnRegister componentName ∧
    (∀ (health : χ) (opts : List OptionFn),
      ((h.UnRegister componentName).Register componentName health opts).2 = none ∧
      GoMap.find ((h.UnRegister componentName).Register componentName health opts).1.healthers
        componentName = some health) := by
  have h1 : GoMap.find (h.UnRegister componentName).healthers componentName = none :=
    GoMap.find_delete_self _ _
  have h2 : GoMap.find (h.UnRegister componentName).componentOptions componentName = none :=
    GoMap.find_delete_self _ _
  have hsame : ∀ g : healther χ, GoMap.find g.healthers componentName = none →
      GoMap.find g.componentOptions componentName = none → g.UnRegister componentName = g := by
    intro g hg1 hg2
    cases g with
    | mk hs os =>
      simp only [healther.UnRegister, healther.mk.injEq]
      exact ⟨GoMap.delete_of_find_none hs _ hg1, GoMap.delete_of_find_none os _ hg2⟩
  refine ⟨h1, h2, ?_, hsame h, hsame _ h1 h2, ?_⟩
  · intro other hne
    exact ⟨GoMap.find_delete_of_ne _ _ _ hne, GoMap.find_delete_of_ne _ _ _ hne⟩
  · intro health opts
    have hreg : (h.UnRegister componentName).Register componentName health opts =
        ({ healthers := GoMap.assign (h.UnRegister componentName).healthers componentName health,
           componentOptions := GoMap.assign (h.UnRegister componentName).componentOptions
             componentName (some (applyOptions opts)) }, none) := by
      unfold healther.Register
      rw [h1]
    rw [hreg]
    exact ⟨rfl, GoMap.find_assign_self _ _ _⟩

/-! ## Unregistration while a check is in flight -/

/-- C12, on the code: the dispatcher has sent the reports of the two required
components of `mockRegistry`, with `componentB` off, and `Check` over the
registry as it was returns a report. When `componentB` is unregistered before
the loop of `Check` reads its option, the lookup yields the nil pointer, the
first case of the `switch` dereferences it and `Check` panics. -/
theorem Check_panics_after_UnRegister :
    healther.gatheringStateOfHealth mockWorld.now (withTimeout (1000 * millisecond)) 0
      mockRegistry mockRun = some mockStream ∧
    statusOf (mockRegistry.Check mockStream (500 * millisecond)) = some HealthNotServing ∧
    (mockRegistry.UnRegister "componentB").option "componentB" = none ∧
    (mockRegistry.UnRegister "componentB").Check mockStream (500 * millisecond) = none :=
  ⟨by decide, by decide, by decide, by decide⟩

/-! ## The counters and the components of the result -/

theorem GoMap.find_eq_none_of_not_mem_keys {V : Type} (m : GoMap V) (k : String)
    (hk : k ∉ GoMap.keys m) : GoMap.find m k = none := by
  induction m with
  | nil => rfl
  | cons e m ih =>
    obtain ⟨a, b⟩ := e
    simp only [GoMap.keys, List.map_cons, List.mem_cons, not_or] at hk
    have hk2 : (k == a) = false := by simpa using hk.1
    have := ih (by simpa [GoMap.keys] using hk.2)
    simpa [GoMap.find, List.lookup_cons, hk2] using this

theorem GoMap.not_mem_keys_delete {V : Type} (m : GoMap V) (k : String) :
    k ∉ GoMap.keys (GoMap.delete m k) := by
  simp [GoMap.keys, GoMap.delete, List.mem_map, List.mem_filter]

theorem GoMap.nodup_keys_delete {V : Type} (m : GoMap V) (k : String)
    (hn : (GoMap.keys m).Nodup) : (GoMap.keys (GoMap.delete m k)).Nodup := by
  unfold GoMap.keys GoMap.delete at *
  exact List.Nodup.sublist (List.Sublist.map _ (List.filter_sublist m)) hn

theorem GoMap.nodup_keys_incr (m : GoMap Int) (k : String) (hn : (GoMap.keys m).Nodup) :
    (GoMap.keys (GoMap.incr m k)).Nodup := by
  have h1 := GoMap.not_mem_keys_delete m k
  have h2 := GoMap.nodup_keys_delete m k hn
  unfold GoMap.incr GoMap.assign
  simpa [GoMap.keys] using And.intro (by simpa [GoMap.keys] using h1) (by simpa [GoMap.keys] using h2)

theorem GoMap.total_eq_index_add (m : GoMap Int) (k : String) (hn : (GoMap.keys m).Nodup) :
    GoMap.total m = GoMap.index 0 m k + GoMap.total (GoMap.delete m k) := by
  induction m with
  | nil => rfl
  | cons e m ih =>
    obtain ⟨a, b⟩ := e
    have hn2 : a ∉ GoMap.keys m ∧ (GoMap.keys m).Nodup := by
      simpa [GoMap.keys] using hn
    by_cases hk : k = a
    · subst hk
      have hdel : GoMap.delete m k = m :=
        GoMap.delete_of_find_none m k (GoMap.find_eq_none_of_not_mem_keys m k hn2.1)
      have hdel2 : GoMap.delete ((k, b) :: m) k = m := by
        unfold GoMap.delete at hdel ⊢
        simpa [List.filter_cons] using hdel
      rw [hdel2]
      simp [GoMap.total, GoMap.index, GoMap.find, List.lookup_cons]
    · have hk2 : (k == a) = false := by simpa using hk
      have hne : ¬ a = k := fun e => hk e.symm
      have hdel2 : GoMap.delete ((a, b) :: m) k = (a, b) :: GoMap.delete m k := by
        unfold GoMap.delete
        simp [List.filter_cons, hne]
      have hidx : GoMap.index 0 ((a, b) :: m) k = GoMap.index 0 m k := by
        simp [GoMap.index, GoMap.find, List.lookup_cons, hk2]
      have ih2 := ih hn2.2
      rw [hdel2, hidx]
      simp only [GoMap.total, List.map_cons, List.sum_cons] at ih2 ⊢
      rw [ih2]
      ring

theorem GoMap.total_incr (m : GoMap Int) (k : String) (hn : (GoMap.keys m).Nodup) :
    GoMap.total (GoMap.incr m k) = GoMap.total m + 1 := by
  have h := GoMap.total_eq_index_add m k hn
  unfold GoMap.incr GoMap.assign
  simp only [GoMap.total, List.map_cons, List.sum_cons] at h ⊢
  rw [h]
  ring

theorem total_statsAfter (rs : List HealthComponentDescription) :
    ∀ m : GoMap Int, (GoMap.keys m).Nodup →
      GoMap.total (statsAfter m rs) = GoMap.total m + (rs.length : Int) ∧
      (GoMap.keys (statsAfter m rs)).Nodup := by
  induction rs with
  | nil => intro m hn; simpa [statsAfter] using hn
  | cons r rs ih =>
    intro m hn
    have hstep : statsAfter m (r :: rs) =
        statsAfter (GoMap.incr m (HealthComponentStatus.String r.Status)) rs := rfl
    have h2 := ih (GoMap.incr m (HealthComponentStatus.String r.Status))
      (GoMap.nodup_keys_incr m _ hn)
    rw [hstep, h2.1, GoMap.total_incr m _ hn]
    refine ⟨?_, h2.2⟩
    simp only [List.length_cons, Nat.cast_add, Nat.cast_one]
    ring

theorem index_statsAfter (key : String) (rs : List HealthComponentDescription) :
    GoMap.index 0 (statsAfter [] rs) key = (statusCount key rs : Int) := by
  unfold GoMap.index
  rw [find_statsAfter]
  by_cases h0 : statusCount key rs = 0
  · simp [h0, GoMap.find]
  · simp [h0, GoMap.index, GoMap.find]

theorem Check_some {χ : Type} (h : healther χ) (rs : List HealthComponentDescription)
    (d : Duration) (res : Health) (hres : h.Check rs d = some res) :
    res = { Status := classification h rs
            Stats := statsAfter [] rs
            Components := sortByDuration rs
            Duration := d } := by
  rw [Check_eq] at hres
  by_cases hpanic : rs.any (derefsNil h) = true
  · simp [hpanic] at hres
  · simp only [hpanic, Bool.false_eq_true, if_false, Option.some.injEq] at hres
    exact hres.symm

theorem Check_isSome_of_registered {χ : Type} (h : healther χ) (hc : h.Consistent)
    (rs : List HealthComponentDescription)
    (hr : ∀ r ∈ rs, h.registered r.ComponentName = true) (d : Duration) :
    ∃ res, h.Check rs d = some res := by
  rw [Check_eq, no_derefsNil_of_registered h hc rs hr]
  exact ⟨_, rfl⟩

/-- C13: in every result of `Check` the values of `Stats` sum to the number
of reports received, which is the length of `Components`, and the entry of
`Stats` under each key is the number of reports whose status has that name:
a report adds exactly 1 to the entry under the name of its status and nothing
to the others. For reports of registered components of a consistent registry
`Check` does return a result. -/
theorem Check_Stats_total {χ : Type} (h : healther χ) (rs : List HealthComponentDescription)
    (d : Duration) :
    (∀ res, h.Check rs d = some res →
      GoMap.total res.Stats = (rs.length : Int) ∧
      res.Components.length = rs.length ∧
      GoMap.total res.Stats = (res.Components.length : Int) ∧
      (GoMap.keys res.Stats).Nodup ∧
      ∀ key, GoMap.index 0 res.Stats key = (statusCount key rs : Int)) ∧
    (∀ (m : GoMap Int) (r : HealthComponentDescription) (key : String),
      GoMap.index 0 (GoMap.incr m (HealthComponentStatus.String r.Status)) key =
        if key = HealthComponentStatus.String r.Status then GoMap.index 0 m key + 1
        else GoMap.index 0 m key) ∧
    (h.Consistent → (∀ r ∈ rs, h.registered r.ComponentName = true) →
      ∃ res, h.Check rs d = some res) := by
  refine ⟨?_, ?_, fun hc hr => Check_isSome_of_registered h hc rs hr d⟩
  · intro res hres
    have hform := Check_some h rs d res hres
    have htotal := total_statsAfter rs [] List.nodup_nil
    have hlen : (sortByDuration rs).length = rs.length :=
      (List.perm_insertionSort _ rs).length_eq
    rw [hform]
    simp only
    refine ⟨?_, hlen, ?_, htotal.2, fun key => index_statsAfter key rs⟩
    · rw [htotal.1]
      simp [GoMap.total]
    · rw [htotal.1, hlen]
      simp [GoMap.total]
  · intro m r key
    rw [GoMap.index_incr]
    by_cases hk : key = HealthComponentStatus.String r.Status
    · simp [hk]
    · simp [hk]

theorem Check_Stats_total_witness :
    GoMap.total ctxTestHealth.Stats = (ctxTestStream.length : Int) ∧
    ctxTestHealth.Components.length = ctxTestStream.length ∧
    GoMap.total ctxTestHealth.Stats = (ctxTestHealth.Components.length : Int) ∧
    (GoMap.keys ctxTestHealth.Stats).Nodup ∧
    ∀ key, GoMap.index 0 ctxTestHealth.Stats key = (statusCount key ctxTestStream : Int) :=
  (Check_Stats_total requiredRegistry ctxTestStream (1000 * millisecond)).1 ctxTestHealth
    (by decide)

/-- C14: in every result of `Check` the list `Components` is a permutation of
the reports received, so none is lost, duplicated or altered, and it is in
non-decreasing order of `Duration`: every entry has a duration at most that of
every later entry. For reports of registered components of a consistent
registry `Check` does return a result. -/
theorem Check_Components_sorted {χ : Type} (h : healther χ)
    (rs : List HealthComponentDescription) (d : Duration) :
    (∀ res, h.Check rs d = some res →
      res.Components.Perm rs ∧
      res.Components.Pairwise (fun a b => a.Duration ≤ b.Duration)) ∧
    (h.Consistent → (∀ r ∈ rs, h.registered r.ComponentName = true) →
      ∃ res, h.Check rs d = some res) := by
  refine ⟨?_, fun hc hr => Check_isSome_of_registered h hc rs hr d⟩
  intro res hres
  have hform := Check_some h rs d res hres
  rw [hform]
  simp only
  haveI : IsTotal HealthComponentDescription (fun a b => a.Duration ≤ b.Duration) :=
    ⟨fun a b => le_total a.Duration b.Duration⟩
  haveI : IsTrans HealthComponentDescription (fun a b => a.Duration ≤ b.Duration) :=
    ⟨fun a b c hab hbc => le_trans hab hbc⟩
  have hsorted : List.Sorted (fun a b : HealthComponentDescription => a.Duration ≤ b.Duration)
      (List.insertionSort (fun a b => a.Duration ≤ b.Duration) rs) :=
    List.sorted_insertionSort _ rs
  exact ⟨List.perm_insertionSort _ rs, hsorted⟩

theorem Check_Components_sorted_witness :
    requiredRegistry.Check testStreamReordered 600 = some reorderedHealth ∧
    reorderedHealth.Components.Perm testStreamReordered ∧
    reorderedHealth.Components.Pairwise (fun a b => a.Duration ≤ b.Duration) :=
  ⟨by decide,
    (Check_Components_sorted requiredRegistry testStreamReordered 600).1 reorderedHealth
      (by decide)⟩

/-! ## The names on the channel are the keys of the checker map -/

theorem wrapHealthCheck_name {W : Type} (clock : W → Int) (ctx : Context W)
    (start : Int) (name : String) (healther : ComponentHealther W) (fuel : Nat) :
    ∀ (w : W) (res : HealthComponentDescription × W × Nat),
      wrapHealthCheck clock ctx start name healther fuel w = some res →
      res.1.ComponentName = name := by
  induction fuel with
  | zero => intro w res hres; simp [wrapHealthCheck] at hres
  | succ f ih =>
    intro w res hres
    rw [wrapHealthCheck] at hres
    by_cases h0 : (healther.Check ctx w).1.Status = HealthComponentStatusFail
    · by_cases hd0 : ctx.Done (healther.Check ctx w).2 = true
      · simp only [h0, if_true, hd0, Option.some.injEq] at hres
        rw [← hres]
        rfl
      · simp only [h0, if_true, hd0, Bool.false_eq_true, if_false] at hres
        cases hrec : wrapHealthCheck clock ctx start name healther f (healther.Check ctx w).2 with
        | none => simp [hrec] at hres
        | some val =>
          obtain ⟨report, w2, calls⟩ := val
          simp only [hrec, Option.some.injEq] at hres
          rw [← hres]
          exact ih _ (report, w2, calls) hrec
    · simp only [h0, if_false, Option.some.injEq] at hres
      rw [← hres]

theorem gatheringTask_name {W : Type} (clock : W → Int) (ctx : Context W)
    (start : Int) (name : String) (healther : ComponentHealther W) (fuel : Nat) (w : W)
    (fired : Option W) (res : HealthComponentDescription × W)
    (hres : gatheringTask clock ctx start name healther fuel w fired = some res) :
    res.1.ComponentName = name := by
  unfold gatheringTask at hres
  cases hw : wrapHealthCheck clock ctx start name healther fuel w with
  | none => simp [hw] at hres
  | some val =>
    obtain ⟨report, w1, calls⟩ := val
    have hname := wrapHealthCheck_name clock ctx start name healther fuel w _ hw
    cases fired with
    | none =>
      simp only [hw, Option.some.injEq] at hres
      rw [← hres]; exact hname
    | some w2 =>
      by_cases hd : ctx.Done w2 = true
      · simp only [hw, hd, if_true, Option.some.injEq] at hres
        rw [← hres]
        rfl
      · simp only [hw, hd, Bool.false_eq_true, if_false, Option.some.injEq] at hres
        rw [← hres]; exact hname

theorem sentReports_names {W : Type} (clock : W → Int) (ctx : Context W) (start : Int)
    (run : String → Nat × W × Option W) (m : GoMap (ComponentHealther W)) :
    ∀ rs, sentReports clock ctx start run m = some rs →
      rs.map HealthComponentDescription.ComponentName = GoMap.keys m := by
  induction m with
  | nil =>
    intro rs hrs
    simp only [sentReports, Option.some.injEq] at hrs
    rw [← hrs]
    rfl
  | cons e m ih =>
    obtain ⟨name, check⟩ := e
    intro rs hrs
    rw [sentReports] at hrs
    cases ht : gatheringTask clock ctx start name check (run name).1 (run name).2.1
        (run name).2.2 with
    | none => simp [ht] at hrs
    | some val =>
      obtain ⟨r, w1⟩ := val
      have hname := gatheringTask_name clock ctx start name check _ _ _ _ ht
      cases hrest : sentReports clock ctx start run m with
      | none => simp [ht, hrest] at hrs
      | some rest =>
        simp only [ht, hrest, Option.some.injEq] at hrs
        rw [← hrs]
        have ih2 := ih rest hrest
        simp only [List.map_cons, GoMap.keys] at ih2 ⊢
        rw [ih2]
        exact congrArg (fun x => x :: List.map Prod.fst m) hname

theorem GoMap.find_isSome_of_mem_keys {V : Type} (m : GoMap V) (k : String)
    (hk : k ∈ GoMap.keys m) : (GoMap.find m k).isSome = true := by
  induction m with
  | nil => simp [GoMap.keys] at hk
  | cons e m ih =>
    obtain ⟨a, b⟩ := e
    by_cases hka : k = a
    · subst hka
      simp [GoMap.find, List.lookup_cons]
    · have hk2 : (k == a) = false := by simpa using hka
      have hmem : k ∈ GoMap.keys m := by
        simpa [GoMap.keys, hka] using hk
      simpa [GoMap.find, List.lookup_cons, hk2] using ih hmem

theorem registered_of_sent {W : Type} (clock : W → Int) (ctx : Context W) (start : Int)
    (h : healther (ComponentHealther W)) (run : String → Nat × W × Option W)
    (sent stream : List HealthComponentDescription)
    (hsent : h.gatheringStateOfHealth clock ctx start run = some sent)
    (hperm : stream.Perm sent) :
    ∀ r ∈ stream, h.registered r.ComponentName = true := by
  intro r hr
  have hnames := sentReports_names clock ctx start run h.healthers sent hsent
  have hmem : r.ComponentName ∈ GoMap.keys h.healthers := by
    rw [← hnames]
    exact List.mem_map_of_mem _ (hperm.mem_iff.mp hr)
  exact GoMap.find_isSome_of_mem_keys _ _ hmem

theorem GoMap.eq_nil_of_find_none {V : Type} (m : GoMap V)
    (hnone : ∀ k, GoMap.find m k = none) : m = [] := by
  cases m with
  | nil => rfl
  | cons e m =>
    obtain ⟨a, b⟩ := e
    have := hnone a
    simp [GoMap.find, List.lookup_cons] at this

/-! ## The empty registry -/

/-- C15: for a registry without registered components, a fresh `New()` or one
from which every component was unregistered, the dispatcher sends no report,
and `Check` over whatever arrives from it returns the status not serving with
an empty `Stats` map and an empty `Components` list. -/
theorem Check_empty_registry {W : Type} (clock : W → Int) (ctx : Context W) (start : Int)
    (h : healther (ComponentHealther W)) (hempty : ∀ name, h.registered name = false)
    (run : String → Nat × W × Option W) (d : Duration) :
    h.gatheringStateOfHealth clock ctx start run = some [] ∧
    (∀ sent stream, h.gatheringStateOfHealth clock ctx start run = some sent →
      stream.Perm sent → h.Check stream d = some (emptyHealth d)) ∧
    (∀ name, (New (ComponentHealther W)).registered name = false) := by
  have hnil : h.healthers = [] := by
    apply GoMap.eq_nil_of_find_none
    intro k
    have := hempty k
    unfold healther.registered at this
    cases hf : GoMap.find h.healthers k with
    | none => rfl
    | some c => simp [hf] at this
  have hsent : h.gatheringStateOfHealth clock ctx start run = some [] := by
    unfold healther.gatheringStateOfHealth
    rw [hnil]
    rfl
  refine ⟨hsent, ?_, fun name => rfl⟩
  intro sent stream hs hperm
  rw [hsent] at hs
  have hsent2 : sent = [] := by
    simpa using hs.symm
  subst hsent2
  have hstream : stream = [] := List.Perm.eq_nil hperm
  subst hstream
  rfl

theorem Check_empty_registry_witness :
    (healther.gatheringStateOfHealth mockWorld.now (withTimeout (1000 * millisecond)) 0
        unregisteredRegistry mockRun = some [] ∧
      (∀ sent stream, healther.gatheringStateOfHealth mockWorld.now
          (withTimeout (1000 * millisecond)) 0 unregisteredRegistry mockRun = some sent →
        stream.Perm sent → unregisteredRegistry.Check stream 7 = some (emptyHealth 7)) ∧
      (∀ name, (New (ComponentHealther mockWorld)).registered name = false)) ∧
    (New (ComponentHealther mockWorld)).Check [] 7 = some (emptyHealth 7) :=
  ⟨Check_empty_registry mockWorld.now (withTimeout (1000 * millisecond)) 0
      unregisteredRegistry (fun _ => rfl) mockRun 7,
    by decide⟩

/-! ## The overall status is never unknown -/

theorem any_on_of_statusAfter_unknown {χ : Type} (h : healther χ)
    (rs : List HealthComponentDescription)
    (hu : statusAfter h HealthUnknown rs = HealthUnknown) :
    rs.any (fun r => decide (r.Status = HealthComponentStatusOn)) = false := by
  unfold statusAfter at hu
  by_cases hreq : rs.any (fun r => h.isRequired r.ComponentName &&
      decide (r.Status ≠ HealthComponentStatusOn)) = true
  · simp only [hreq, if_true] at hu
    exact absurd hu (by decide)
  · by_cases hany : rs.any (fun r => decide (r.Status = HealthComponentStatusOn)) = true
    · simp only [hreq, hany, if_true, if_false] at hu
      exact absurd hu (by decide)
    · simpa using hany

theorem classification_ne_unknown {χ : Type} (h : healther χ)
    (rs : List HealthComponentDescription) :
    classification h rs = HealthServing ∨ classification h rs = HealthNotServing := by
  unfold classification
  by_cases hreq : rs.any (fun r => h.isRequired r.ComponentName &&
      decide (r.Status ≠ HealthComponentStatusOn)) = true
  · rw [if_pos hreq]
    exact Or.inr rfl
  · by_cases hany : rs.any (fun r => decide (r.Status = HealthComponentStatusOn)) = true
    · rw [if_neg hreq, if_pos hany]
      exact Or.inl rfl
    · rw [if_neg hreq, if_neg hany]
      exact Or.inr rfl

/-- C18: `Check` never returns the status unknown. Every result of `Check`
has the status serving or not serving, and for reports of registered components
of a consistent registry `Check` returns such a result; whenever the loop of
`Check` ends with the status unknown, `Stats` has no entry under "on", so the
fallback after the loop sets not serving. -/
theorem Check_status_ne_unknown {χ : Type} (h : healther χ)
    (rs : List HealthComponentDescription) (d : Duration) :
    (∀ res, h.Check rs d = some res →
      (res.Status = HealthServing ∨ res.Status = HealthNotServing) ∧
      res.Status ≠ HealthUnknown) ∧
    (∀ loopRes, checkLoop h rs = some loopRes → loopRes.Status = HealthUnknown →
      GoMap.find loopRes.Stats "on" = none ∧ fallbackStatus loopRes = HealthNotServing) ∧
    (h.Consistent → (∀ r ∈ rs, h.registered r.ComponentName = true) →
      ∃ res, h.Check rs d = some res ∧
        (res.Status = HealthServing ∨ res.Status = HealthNotServing)) := by
  refine ⟨?_, ?_, ?_⟩
  · intro res hres
    rw [Check_some h rs d res hres]
    simp only
    have hcl := classification_ne_unknown h rs
    refine ⟨hcl, ?_⟩
    rcases hcl with h1 | h2
    · rw [h1]; decide
    · rw [h2]; decide
  · intro loopRes hloop hu
    unfold checkLoop at hloop
    rw [foldlM_checkStep] at hloop
    by_cases hpanic : rs.any (derefsNil h) = true
    · simp [hpanic] at hloop
    · simp only [hpanic, Bool.false_eq_true, if_false, Option.some.injEq, initialHealth] at hloop
      rw [← hloop] at hu ⊢
      simp only at hu
      have hany := any_on_of_statusAfter_unknown h rs hu
      have hcount : statusCount "on" rs = 0 := (statusCount_on_eq_zero rs).mpr hany
      have hfind : GoMap.find (statsAfter [] rs) "on" = none := by
        rw [find_statsAfter, hcount]
        rfl
      refine ⟨hfind, ?_⟩
      have hname : HealthComponentStatus.String HealthComponentStatusOn = "on" := by decide
      simp only [fallbackStatus, hu, if_true, hname, hfind]
  · intro hc hr
    obtain ⟨res, hres⟩ := Check_isSome_of_registered h hc rs hr d
    refine ⟨res, hres, ?_⟩
    rw [Check_some h rs d res hres]
    exact classification_ne_unknown h rs

theorem Check_status_ne_unknown_witness :
    GoMap.find optionalOffLoop.Stats "on" = none ∧
    fallbackStatus optionalOffLoop = HealthNotServing :=
  (Check_status_ne_unknown optionalRegistry optionalOffStream 9).2.1 optionalOffLoop
    (by decide) (by decide)

/-! ## The invariant of the registry -/

theorem Consistent_of_Reachable {χ : Type} (h : healther χ) (hreach : Reachable h) :
    h.Consistent := by
  induction hreach with
  | new => exact Consistent_New χ
  | register g componentName health opts _ ih =>
    exact Consistent_Register g ih componentName health opts
  | unregister g componentName _ ih => exact Consistent_UnRegister g ih componentName

theorem stored_ne_nil_of_Reachable {χ : Type} (h : healther χ) (hreach : Reachable h) :
    ∀ e ∈ h.componentOptions, e.2 ≠ none := by
  induction hreach with
  | new => intro e he; simp [New] at he
  | register g componentName health opts _ ih =>
    intro e he
    unfold healther.Register at he
    cases hf : GoMap.find g.healthers componentName with
    | some c =>
      simp only [hf] at he
      exact ih e he
    | none =>
      simp only [hf, GoMap.assign, GoMap.delete, List.mem_cons, List.mem_filter] at he
      rcases he with heq | hmem
      · rw [heq]
        simp
      · exact ih e hmem.1
  | unregister g componentName _ ih =>
    intro e he
    simp only [healther.UnRegister, GoMap.delete, List.mem_filter] at he
    exact ih e he.1

/-- C19: in every registry reachable from `New()` by calls of `Register` and
`UnRegister`, the checker map and the option map have the same keys and no
stored option is the nil pointer. Hence the option looked up for a registered
name is not nil, and for the reports the dispatcher sends from the checker map
of such a registry, in any arrival order, the loop of `Check` over that
registry dereferences no nil option: `Check` returns a result. -/
theorem Reachable_invariant {W : Type} (h : healther (ComponentHealther W))
    (hreach : Reachable h) :
    (∀ name, (GoMap.find h.healthers name).isSome =
      (GoMap.find h.componentOptions name).isSome) ∧
    (∀ e ∈ h.componentOptions, e.2 ≠ none) ∧
    (∀ name, h.registered name = true → ∃ o, h.option name = some o) ∧
    (∀ (clock : W → Int) (ctx : Context W) (start : Int)
        (run : String → Nat × W × Option W) (sent stream : List HealthComponentDescription)
        (d : Duration),
      h.gatheringStateOfHealth clock ctx start run = some sent → stream.Perm sent →
      ∃ res, h.Check stream d = some res) := by
  have hc := Consistent_of_Reachable h hreach
  refine ⟨fun name => (hc name).1, stored_ne_nil_of_Reachable h hreach, ?_, ?_⟩
  · intro name hr
    have hsome := option_isSome_of_registered h hc name hr
    cases ho : h.option name with
    | none => simp [ho] at hsome
    | some o => exact ⟨o, rfl⟩
  · intro clock ctx start run sent stream d hsent hperm
    exact Check_isSome_of_registered h hc stream
      (registered_of_sent clock ctx start h run sent stream hsent hperm) d

theorem Reachable_invariant_witness :
    (∀ name, (GoMap.find mockRegistry.healthers name).isSome =
      (GoMap.find mockRegistry.componentOptions name).isSome) ∧
    (∀ e ∈ mockRegistry.componentOptions, e.2 ≠ none) ∧
    (∀ name, mockRegistry.registered name = true → ∃ o, mockRegistry.option name = some o) ∧
    (∀ (clock : mockWorld → Int) (ctx : Context mockWorld) (start : Int)
        (run : String → Nat × mockWorld × Option mockWorld)
        (sent stream : List HealthComponentDescription) (d : Duration),
      mockRegistry.gatheringStateOfHealth clock ctx start run = some sent → stream.Perm sent →
      ∃ res, mockRegistry.Check stream d = some res) :=
  Reachable_invariant mockRegistry
    (Reachable.register _ "componentB" componentB.Check []
      (Reachable.register _ "componentA" componentA.Check [] Reachable.new))

/-! ## Rendering -/

theorem String_eq (s : HealthComponentStatus) :
    HealthComponentStatus.String s =
      if s = HealthComponentStatusUnknown then "unknown"
      else if s = HealthComponentStatusOn then "on"
      else if s = HealthComponentStatusOff then "off"
      else if s = HealthComponentStatusFail then "fail"
      else if s = HealthComponentStatusTimeout then "timeout"
      else "unknown" := by
  unfold HealthComponentStatus.String healthComponentsStatus
  simp only [HealthComponentStatusUnknown, HealthComponentStatusOn, HealthComponentStatusOff,
    HealthComponentStatusFail, HealthComponentStatusTimeout, List.lookup_cons, List.lookup_nil]
  by_cases h0 : s = 0
  · subst h0; decide
  by_cases h1 : s = 1
  · subst h1; decide
  by_cases h2 : s = 2
  · subst h2; decide
  by_cases h3 : s = 3
  · subst h3; decide
  by_cases h4 : s = 4
  · subst h4; decide
  have e0 : (s == 0) = false := by simpa using h0
  have e1 : (s == 1) = false := by simpa using h1
  have e2 : (s == 2) = false := by simpa using h2
  have e3 : (s == 3) = false := by simpa using h3
  have e4 : (s == 4) = false := by simpa using h4
  simp only [e0, e1, e2, e3, e4, h0, h1, h2, h3, h4, if_false]

theorem HealthStatus_MarshalJSON_eq (h : Int) :
    HealthStatus.MarshalJSON h =
      some (if h = HealthServing then "\"SERVING\""
            else if h = HealthNotServing then "\"NOT_SERVING\""
            else "\"UNKNOWN\"", none) := by
  by_cases hout : h < 0 ∨ h > 2
  · have h1 : ¬ h = 1 := by omega
    have h2 : ¬ h = 2 := by omega
    simp only [HealthStatus.MarshalJSON, hout, if_true, healthStatuses, HealthServing,
      HealthNotServing, h1, h2, if_false]
    rfl
  · have hcases : h = 0 ∨ h = 1 ∨ h = 2 := by omega
    rcases hcases with h0 | h1 | h2
    · subst h0; decide
    · subst h1; decide
    · subst h2; decide

/-- C16: the statuses render as their documented names for every integer.
`HealthComponentStatus.String` is "unknown", "on", "off", "fail", "timeout" for
the five defined values and "unknown" for every other integer, and its
`MarshalJSON` is that name between double quotes with a nil error;
`HealthStatus.MarshalJSON` is "UNKNOWN", "SERVING", "NOT_SERVING" between double
quotes for 0, 1, 2 and "UNKNOWN" for every other integer, with a nil error and
without indexing the name table out of range. -/
theorem status_rendering (h : Int) :
    HealthComponentStatus.String HealthComponentStatusUnknown = "unknown" ∧
    HealthComponentStatus.String HealthComponentStatusOn = "on" ∧
    HealthComponentStatus.String HealthComponentStatusOff = "off" ∧
    HealthComponentStatus.String HealthComponentStatusFail = "fail" ∧
    HealthComponentStatus.String HealthComponentStatusTimeout = "timeout" ∧
    ((h < 0 ∨ 4 < h) → HealthComponentStatus.String h = "unknown") ∧
    HealthComponentStatus.MarshalJSON h =
      ("\"" ++ HealthComponentStatus.String h ++ "\"", none) ∧
    HealthStatus.MarshalJSON HealthUnknown = some ("\"UNKNOWN\"", none) ∧
    HealthStatus.MarshalJSON HealthServing = some ("\"SERVING\"", none) ∧
    HealthStatus.MarshalJSON HealthNotServing = some ("\"NOT_SERVING\"", none) ∧
    ((h < 0 ∨ 2 < h) → HealthStatus.MarshalJSON h = some ("\"UNKNOWN\"", none)) ∧
    (∃ bytes, HealthStatus.MarshalJSON h = some (bytes, none)) := by
  refine ⟨by decide, by decide, by decide, by decide, by decide, ?_, rfl, by decide, by decide,
    by decide, ?_, ?_⟩
  · intro hout
    rw [String_eq]
    have h0 : ¬ h = 0 := by omega
    have h1 : ¬ h = 1 := by omega
    have h2 : ¬ h = 2 := by omega
    have h3 : ¬ h = 3 := by omega
    have h4 : ¬ h = 4 := by omega
    simp only [HealthComponentStatusUnknown, HealthComponentStatusOn, HealthComponentStatusOff,
      HealthComponentStatusFail, HealthComponentStatusTimeout, h0, h1, h2, h3, h4, if_false]
  · intro hout
    rw [HealthStatus_MarshalJSON_eq]
    have h1 : ¬ h = 1 := by omega
    have h2 : ¬ h = 2 := by omega
    simp only [HealthServing, HealthNotServing, h1, h2, if_false]
  · rw [HealthStatus_MarshalJSON_eq]
    exact ⟨_, rfl⟩

/-! ## The readiness handler -/

theorem foldl_append_acc (lines : List String) :
    ∀ acc : String, lines.foldl (fun r s => r ++ s) acc =
      acc ++ lines.foldl (fun r s => r ++ s) "" := by
  induction lines with
  | nil => intro acc; simp
  | cons line lines ih =>
    intro acc
    rw [List.foldl_cons, List.foldl_cons, ih (acc ++ line), ih ("" ++ line),
      String.empty_append, String.append_assoc]

theorem String_join_cons (line : String) (lines : List String) :
    String.join (line :: lines) = line ++ String.join lines := by
  unfold String.join
  rw [List.foldl_cons, foldl_append_acc lines ("" ++ line), String.empty_append]

theorem foldl_writeComponent (durationString : Duration → String)
    (cs : List HealthComponentDescription) :
    ∀ buff : String, cs.foldl (writeComponent durationString) buff =
      buff ++ String.join
        ((cs.filter (fun c => decide (c.Status = HealthComponentStatusFail ∨
            c.Status = HealthComponentStatusTimeout))).map
          (fun c =>
            if c.Status = HealthComponentStatusFail then
              "- " ++ c.ComponentName ++ " " ++ "fail" ++ ": " ++ c.Description
            else
              "- " ++ c.ComponentName ++ " " ++ "timeout" ++ ": " ++ c.Description ++ " " ++
                durationString c.Duration)) := by
  induction cs with
  | nil => intro buff; simp [String.join]
  | cons c cs ih =>
    intro buff
    rw [List.foldl_cons, ih]
    by_cases hf : c.Status = HealthComponentStatusFail
    · have hname : HealthComponentStatus.String HealthComponentStatusFail = "fail" := by decide
      simp only [writeComponent, failLine, hf, hname, if_true, true_or, decide_True,
        List.filter_cons, List.map_cons, String_join_cons, String.append_assoc]
    · by_cases ht : c.Status = HealthComponentStatusTimeout
      · have hne : ¬ HealthComponentStatusTimeout = HealthComponentStatusFail := by decide
        have hname : HealthComponentStatus.String HealthComponentStatusTimeout = "timeout" := by
          decide
        simp only [writeComponent, timeoutLine, ht, hne, hname, if_true, if_false, or_true,
          decide_True, List.filter_cons, List.map_cons, String_join_cons, String.append_assoc]
      · simp only [writeComponent, hf, ht, if_false, List.filter_cons, or_self, decide_False,
          Bool.false_eq_true]

/-- C17: for every result of `Check`, `ReadinessHandler` answers with the code
200 and the body "OK" if and only if the overall status is serving. For every
other status it answers with the code 503 and a body that is the concatenation,
closed by a line feed, of one line for each component whose status is fail or
timeout, in the order of `Components`, and of nothing else. The line of a
failed component is "- ", its name, a space, the status name "fail", ": " and
its description; the line of a component that timed out is "- ", its name, a
space, the status name "timeout", ": ", its description, a space and its
duration as `time.Duration.String` renders it. -/
theorem ReadinessHandler_answer (durationString : Duration → String) (state : Health) :
    (((ReadinessHandler durationString state).statusCode = 200 ∧
        (ReadinessHandler durationString state).body = "OK") ↔
      state.Status = HealthServing) ∧
    (state.Status ≠ HealthServing →
      (ReadinessHandler durationString state).statusCode = 503 ∧
      (ReadinessHandler durationString state).body =
        String.join
          ((state.Components.filter (fun c => decide (c.Status = HealthComponentStatusFail ∨
              c.Status = HealthComponentStatusTimeout))).map
            (fun c =>
              if c.Status = HealthComponentStatusFail then
                "- " ++ c.ComponentName ++ " " ++ "fail" ++ ": " ++ c.Description
              else
                "- " ++ c.ComponentName ++ " " ++ "timeout" ++ ": " ++ c.Description ++ " " ++
                  durationString c.Duration)) ++ "\n") := by
  by_cases hs : state.Status = HealthServing
  · refine ⟨?_, fun hne => absurd hs hne⟩
    simp [ReadinessHandler, hs]
  · refine ⟨?_, fun _ => ?_⟩
    · simp [ReadinessHandler, hs]
    · have hfold := foldl_writeComponent durationString state.Components ""
      rw [String.empty_append] at hfold
      simp only [ReadinessHandler, hs, if_false, hfold, and_self]

theorem ReadinessHandler_answer_witness :
    failingHealth.Status ≠ HealthServing ∧
    (ReadinessHandler nanoseconds failingHealth).statusCode = 503 ∧
    (ReadinessHandler nanoseconds failingHealth).body =
      "- db fail: no route- componentA timeout: context deadline exceeded 1000000000ns\n" :=
  ⟨by decide,
    ((ReadinessHandler_answer nanoseconds failingHealth).2 (by decide)).1,
    ((ReadinessHandler_answer nanoseconds failingHealth).2 (by decide)).2.trans (by decide)⟩

end health
